import Mathlib

/-!
# udev-configure-printer: a shallow embedding of `udev/udev-configure-printer.c`

Conventions of the embedding.

* A C string is the list of its characters before the terminating NUL; a
  nullable `char *` is an `Option (List Char)` (`none` is `NULL`).
* Reading `s[i]` gives `s.get? i`, where `none` stands for the terminating NUL.
* Heap allocation (`strdup`, `strndup`, `malloc`) is assumed to succeed; `syslog`
  calls have no effect on the values computed and are left out.
* A `while` loop whose termination is not evident from its shape runs on fuel:
  `outcome.hang` is the result of a loop that used up its fuel.
-/

namespace UdevConfigurePrinter

/-! ## Results of running a piece of the program -/

/-- How a run of a function ends: it returns a value, the process leaves through
`exit (code)`, or a loop is still running when the fuel is used up. -/
inductive outcome (α : Type) where
  | val : α → outcome α
  | exit : Nat → outcome α
  | hang : outcome α
  deriving DecidableEq, Repr

/-- Sequencing of two program pieces. -/
def outcome.bind {α β : Type} : outcome α → (α → outcome β) → outcome β
  | outcome.val a, f => f a
  | outcome.exit c, _ => outcome.exit c
  | outcome.hang, _ => outcome.hang

/-! ## The C library string functions the program calls -/

/-- The `tolower` of the "C" locale (the program never calls `setlocale`). -/
def tolower (c : Char) : Char :=
  if 65 ≤ c.toNat ∧ c.toNat ≤ 90 then Char.ofNat (c.toNat + 32) else c

/-- The `strcmp` of libc, up to the sign of the result. -/
def strcmp : List Char → List Char → Int
  | [], [] => 0
  | [], _ :: _ => -1
  | _ :: _, [] => 1
  | a :: s, b :: t =>
    if a = b then strcmp s t else if a.toNat < b.toNat then -1 else 1

/-- The `strcasecmp` of libc, up to the sign of the result. -/
def strcasecmp : List Char → List Char → Int
  | [], [] => 0
  | [], _ :: _ => -1
  | _ :: _, [] => 1
  | a :: s, b :: t =>
    if tolower a = tolower b then strcasecmp s t
    else if (tolower a).toNat < (tolower b).toNat then -1 else 1

/-- The `strncasecmp` of libc, up to the sign of the result: at most `n`
characters are compared. -/
def strncasecmp : List Char → List Char → Nat → Int
  | _, _, 0 => 0
  | [], [], _ + 1 => 0
  | [], _ :: _, _ + 1 => -1
  | _ :: _, [], _ + 1 => 1
  | a :: s, b :: t, n + 1 =>
    if tolower a = tolower b then strncasecmp s t n
    else if (tolower a).toNat < (tolower b).toNat then -1 else 1

/-- Whether `needle` is an initial segment of `hay`. -/
def starts_with : List Char → List Char → Bool
  | _, [] => true
  | [], _ :: _ => false
  | a :: s, b :: t => a = b && starts_with s t

/-- The `strstr` of libc: the offset of the first occurrence of `needle` in
`hay`, `none` for the `NULL` result. -/
def strstr : List Char → List Char → Option Nat
  | [], needle => if starts_with [] needle then some 0 else none
  | a :: s, needle =>
    if starts_with (a :: s) needle then some 0
    else (strstr s needle).map (· + 1)

/-- The `strspn` of libc: the length of the initial run of characters of `s`
that all occur in `accept`. -/
def strspn (s accept : List Char) : Nat :=
  (s.takeWhile (fun c => decide (c ∈ accept))).length

/-! ## Device IDs (lines 49-125) -/

/-- The `struct device_id`. -/
structure device_id where
  full_device_id : Option (List Char)
  mfg : Option (List Char)
  mdl : Option (List Char)
  sern : Option (List Char)
  deriving DecidableEq, Repr

/-- The identity `device_id_from_devpath` starts from (line 138). -/
def device_id.empty : device_id := ⟨none, none, none, none⟩

/-- Lines 106-118: the slot assignments made for one field. In C `&&` binds
tighter than `||`, so each condition reads `(!slot && long) || short ...`. -/
def assign_field (fieldname value : List Char) (id : device_id) : device_id :=
  if (id.mfg = none ∧ strncasecmp fieldname "MANUFACTURER".toList 12 = 0) ∨
      strncasecmp fieldname "MFG".toList 3 = 0 then
    { id with mfg := some value }
  else if (id.mdl = none ∧ strncasecmp fieldname "MODEL".toList 5 = 0) ∨
      strncasecmp fieldname "MDL".toList 3 = 0 then
    { id with mdl := some value }
  else if (id.sern = none ∧ strncasecmp fieldname "SERIALNUMBER".toList 12 = 0) ∨
      strncasecmp fieldname "SERN".toList 4 = 0 ∨
      strncasecmp fieldname "SN".toList 2 = 0 then
    { id with sern := some value }
  else id

/-- Lines 85-122: the field loop; `start` is the text from the pointer `start`
to the end of the string. One unit of fuel is one iteration. -/
def parse_fields : Nat → List Char → device_id → outcome device_id
  | 0, _, _ => outcome.hang
  | fuel + 1, start, id =>
    if start = [] then outcome.val id
    else
      -- lines 89-91: `end` runs to the first ':' or to the end
      let fieldname := start.takeWhile (· ≠ ':')
      match start.dropWhile (· ≠ ':') with
      | [] => outcome.val id                       -- line 93: break
      | _ :: after =>
        -- line 100: start = end + 1; lines 101-102: `end` (which sits on the
        -- ':') runs to the first ';' or to the end; line 104: len = end - start
        let value := after.takeWhile (· ≠ ';')
        let id1 := assign_field fieldname value id
        match after.dropWhile (· ≠ ';') with
        | [] => parse_fields fuel after id1        -- line 120: `start` is kept
        | _ :: next => parse_fields fuel next id1  -- line 121: start = end + 1

/-- The `parse_device_id` of lines 66-125. Every iteration of the field loop
moves `start` forward, so `length + 1` iterations always suffice
(see `parse_fields_total`). -/
def parse_device_id (s : List Char) (id : device_id) : outcome device_id :=
  parse_fields (s.length + 1) s { id with full_device_id := some s }

/-! ## The CUPS side (lines 195-331) -/

/-- The `IPP_TAG_PRINTER` of `<cups/ipp.h>`. -/
def IPP_TAG_PRINTER : Nat := 0x04

/-- The `IPP_TAG_URI` of `<cups/ipp.h>`. -/
def IPP_TAG_URI : Nat := 0x45

/-- The `IPP_OK_CONFLICT` of `<cups/ipp.h>`. -/
def IPP_OK_CONFLICT : Nat := 0x0002

/-- The fields of an `ipp_attribute_t` the program reads; `text` is
`values[0].string.text`, and the `next` pointers are the list structure. -/
structure ipp_attribute where
  group_tag : Nat
  name : List Char
  value_tag : Nat
  text : List Char
  deriving DecidableEq, Repr

/-- The fields of an `ipp_t` the program reads. -/
structure ipp_t where
  status_code : Nat
  attrs : List ipp_attribute
  deriving DecidableEq, Repr

/-- The two outputs of `httpSeparateURI` the program reads: the host part
(stored in the buffer `mfg`) and the decoded resource. -/
structure uri_parts where
  mfg : List Char
  resource : List Char
  deriving DecidableEq, Repr

/-- What the CUPS library does for the program: the outcome of the `k`-th call
of `httpConnectEncrypt` (`true`: a connection), the result of `cupsDoRequest`
(`none`: `NULL`), and `httpSeparateURI` with `HTTP_URI_CODING_ALL`. -/
structure cups_env where
  connect : Nat → Bool
  answer : Option ipp_t
  httpSeparateURI : List Char → uri_parts

/-- What the body of the inner loop does with a `device-uri` attribute:
`skip` is a `continue`, `record` reaches the assignment of line 321, `final` is
the assignment and `break` of lines 311-312. -/
inductive verdict where
  | skip
  | record
  | final
  deriving DecidableEq, Repr

/-- Lines 279-281: `mdl` points into `resource`, after one leading '/'. -/
def resource_mdl (resource : List Char) : List Char :=
  match resource with
  | '/' :: rest => rest
  | _ => resource

/-- Line 283: the offset in `mdl` of `"?serial="`. -/
def serial_marker (mdl : List Char) : Option Nat :=
  strstr mdl "?serial=".toList

/-- Lines 269 and 286: `mdllen` starts as 0 and is set only when the marker is found. -/
def resource_mdllen (mdl : List Char) : Nat :=
  match serial_marker mdl with
  | some k => k
  | none => 0

/-- Lines 283-287: the pointer `serial`, `none` when `strstr` returned `NULL`,
otherwise the text that follows the eight characters of the marker. -/
def resource_serial (mdl : List Char) : Option (List Char) :=
  (serial_marker mdl).map (fun k => mdl.drop (k + 8))

/-- Line 288: `seriallen`; it is assigned and never read. -/
def resource_seriallen (mdl : List Char) : Option Nat :=
  (resource_serial mdl).map (fun serial => strspn serial "&".toList)

/-- Lines 296-302: `true` when the model comparison lets the endpoint through. -/
def model_check (mdl id_mdl : List Char) : Bool :=
  if resource_mdllen mdl ≠ 0 then
    decide (strncasecmp mdl id_mdl (resource_mdllen mdl) = 0)
  else
    decide (strcasecmp mdl id_mdl = 0)

/-- Lines 279-321 for one `device-uri` attribute whose text separates into `p`.
`do_add` calls the matcher only with `id->mfg` and `id->mdl` set; an identity
lacking one of them (a NULL dereference in C) is given `skip` here. -/
def examine (p : uri_parts) (id : device_id) : verdict :=
  match id.mfg, id.mdl with
  | some id_mfg, some id_mdl =>
    let mdl := resource_mdl p.resource
    if strcasecmp p.mfg id_mfg ≠ 0 then verdict.skip          -- line 292
    else if model_check mdl id_mdl = false then verdict.skip   -- lines 296-302
    else
      match resource_serial mdl with
      | some serial =>
        match id.sern with
        | some sern =>
          if strcasecmp serial sern = 0 then verdict.final     -- lines 308-313
          else verdict.skip
        | none => verdict.skip
      | none => verdict.record                                 -- line 321
  | _, _ => verdict.skip

/-- Lines 257-323: the inner loop. The argument list is the attribute `attr`
points to and its successors (`[]` for `NULL`); the result is the value of
`attr` when the loop is left, with the value of `device_uri`. -/
def scan_group (sep : List Char → uri_parts) (id : device_id) :
    List ipp_attribute → Option (List Char) → List ipp_attribute × Option (List Char)
  | [], device_uri => ([], device_uri)
  | attr :: next, device_uri =>
    if attr.group_tag = IPP_TAG_PRINTER then
      if strcmp attr.name "device-uri".toList = 0 ∧ attr.value_tag = IPP_TAG_URI then
        match examine (sep attr.text) id with
        | verdict.skip => scan_group sep id next device_uri
        | verdict.record => scan_group sep id next (some attr.text)
        | verdict.final => (attr :: next, some attr.text)      -- break
      else scan_group sep id next device_uri
    else (attr :: next, device_uri)

/-- Lines 249-327: the outer loop, one unit of fuel for one iteration. -/
def scan_attrs (sep : List Char → uri_parts) (id : device_id) :
    Nat → List ipp_attribute → Option (List Char) → outcome (Option (List Char))
  | 0, _, _ => outcome.hang
  | fuel + 1, attrs, device_uri =>
    match attrs with
    | [] => outcome.val device_uri                             -- loop condition
    | _ :: _ =>
      -- lines 251-252
      match attrs.dropWhile (fun a => decide (a.group_tag ≠ IPP_TAG_PRINTER)) with
      | [] => outcome.val device_uri                           -- line 254
      | a :: l =>
        match scan_group sep id (a :: l) device_uri with
        | ([], device_uri1) => outcome.val device_uri1         -- line 325
        | (_ :: next, device_uri1) => scan_attrs sep id fuel next device_uri1

/-- Lines 204-221: the connection loop, started with `tries` attempts left and
`k` calls of `httpConnectEncrypt` made; the result is whether `cups` is set and
the number of calls made. -/
def connect_loop (connect : Nat → Bool) : Nat → Nat → Bool × Nat
  | 0, k => (false, k)
  | tries + 1, k =>
    if connect k then (true, k + 1) else connect_loop connect tries (k + 1)

/-- The `find_matching_device_uri` of lines 201-331. `device_uri` is declared
without an initialiser (line 209); `junk` is the value the variable holds when
the function is entered. The outer loop gets `length + 1` units of fuel, which
always suffice (see `scan_attrs_total`). -/
def find_matching_device_uri (c : cups_env) (junk : Option (List Char)) (id : device_id) :
    outcome (Option (List Char)) :=
  if (connect_loop c.connect 6 0).1 = false then outcome.exit 1      -- line 226
  else
    match c.answer with
    | none => outcome.exit 1                                          -- line 239
    | some answer =>
      if answer.status_code > IPP_OK_CONFLICT then outcome.exit 1     -- line 246
      else scan_attrs c.httpSeparateURI id (answer.attrs.length + 1) answer.attrs junk

/-! ## The add path (lines 127-193 and 333-380) -/

/-- What libudev does for the program: whether `udev_new` succeeds, the result
of `udev_get_sys_path`, and whether `udev_device_new_from_syspath` finds a
device for a path. -/
structure udev_env where
  udev_new_ok : Bool
  sys_path : List Char
  device_exists : List Char → Bool

/-- Line 185: the fixed text assigned to `ieee1284_id` (the sysfs lookup above
it is compiled out by `#if 0`). -/
def ieee1284_id : Option (List Char) :=
  some "MFG:EPSON;CMD:ESCPL2,BDC,D4,D4PX;MDL:Stylus D78;CLS:PRINTER;DES:EPSON Stylus D78;".toList

/-- The identity the fixed text of line 185 parses to. -/
def fixed_id : device_id :=
  ⟨ieee1284_id, some "EPSON".toList, some "Stylus D78".toList, none⟩

/-- The `device_id_from_devpath` of lines 127-193. -/
def device_id_from_devpath (u : udev_env) (devpath : List Char) : outcome device_id :=
  let id : device_id := ⟨none, none, none, none⟩                      -- line 138
  if u.udev_new_ok = false then outcome.exit 1                        -- line 144
  else
    let syspath := u.sys_path ++ devpath                              -- lines 158-160
    if u.device_exists syspath = false then outcome.exit 1            -- line 168
    else
      match ieee1284_id with
      | some s => parse_device_id s id                                -- line 189
      | none => outcome.val id

/-- Lines 354-357: `while (id.mfg[i] != '\0') if (id.mfg[i] != id.mdl[i]) break;`
with one unit of fuel for one evaluation of the loop condition. The body does
not change `i`. The result is the value of `i` after the loop. -/
def prefix_loop (mfg mdl : List Char) (i : Nat) : Nat → outcome Nat
  | 0 => outcome.hang
  | fuel + 1 =>
    if mfg.get? i ≠ none then
      if mfg.get? i ≠ mdl.get? i then outcome.val i                   -- break
      else prefix_loop mfg mdl i fuel
    else outcome.val i

/-- Lines 343-363: the check that `mfg` and `mdl` are set, and the
normalization step. `fuel` bounds the loop of lines 355-357. -/
def normalize (fuel : Nat) (id : device_id) : outcome device_id :=
  match id.mfg, id.mdl with
  | some mfg, some mdl =>
    (prefix_loop mfg mdl 0 fuel).bind fun i =>
      if mfg.get? i = none then outcome.val { id with mdl := some (mdl.drop i) }  -- line 361
      else outcome.val id
  | _, _ => outcome.exit 1                                                        -- line 346

/-- Line 375: the text `printf` writes. -/
def remove_cmd (cmd device_uri : List Char) : List Char :=
  "REMOVE_CMD=\"".toList ++ cmd ++ " remove ".toList ++ device_uri ++ "\"\n".toList

/-- The `do_add` of lines 333-380: the result is the text written to standard
output with the value returned. `fuel` bounds the loop of lines 355-357. -/
def do_add (u : udev_env) (c : cups_env) (junk : Option (List Char)) (fuel : Nat)
    (cmd devpath : List Char) : outcome (List Char × Int) :=
  (device_id_from_devpath u devpath).bind fun id =>
    (normalize fuel id).bind fun id1 =>
      (find_matching_device_uri c junk id1).bind fun device_uri =>
        match device_uri with
        | some uri => outcome.val (remove_cmd cmd uri, 0)              -- line 375
        | none => outcome.val ([], 0)

/-! ## The entry point (lines 382-410) -/

/-- The `do_remove` of lines 382-387: it only logs, and returns 0. -/
def do_remove (_uri : List Char) : Int := 0

/-- What `%s` prints for `argv[0]`: the text of the first argument; for an
empty vector `argv[0]` is the `NULL` that ends it, printed by glibc as `(null)`. -/
def argv0_text (argv : List (List Char)) : List Char :=
  match argv with
  | [] => "(null)".toList
  | argv0 :: _ => argv0

/-- Lines 399-402: the text written to `stderr`. -/
def usage (argv0 : List Char) : List Char :=
  "Syntax: ".toList ++ argv0 ++ " add \x7bUSB device path\x7d\n".toList ++
    "        ".toList ++ argv0 ++ " remove \x7bCUPS device URI\x7d\n".toList

/-- What a run of `main` leaves behind when it returns. -/
structure finished where
  stdout : List Char
  stderr : List Char
  status : Int
  deriving DecidableEq, Repr

/-- The `main` of lines 389-410; `argc` is the length of `argv`. -/
def main (u : udev_env) (c : cups_env) (junk : Option (List Char)) (fuel : Nat)
    (argv : List (List Char)) : outcome finished :=
  match argv with
  | [argv0, argv1, argv2] =>
    let add := decide (strcmp argv1 "add".toList = 0)
    if ¬ (add = true ∨ strcmp argv1 "remove".toList = 0) then
      outcome.val ⟨[], usage argv0, 1⟩                                 -- line 403
    else if add = true then
      (do_add u c junk fuel argv0 argv2).bind fun r =>                 -- line 407
        outcome.val ⟨r.1, [], r.2⟩
    else outcome.val ⟨[], [], do_remove argv2⟩                         -- line 409
  | _ => outcome.val ⟨[], usage (argv0_text argv), 1⟩                  -- argc != 3

/-! ## Notions used to state the properties -/

/-- The attributes the inner loop looks at: members of a printer group that are
named `device-uri` and carry a URI (lines 257-260). -/
def examined (a : ipp_attribute) : Bool :=
  decide (a.group_tag = IPP_TAG_PRINTER) &&
    (decide (strcmp a.name "device-uri".toList = 0) && decide (a.value_tag = IPP_TAG_URI))

/-- The endpoint sequence of an answer: the URI texts of the examined attributes, in order. -/
def endpoints (attrs : List ipp_attribute) : List (List Char) :=
  (attrs.filter examined).map (fun a => a.text)

/-- An endpoint is accepted when its examination ends in an assignment to `device_uri`. -/
def accepted (sep : List Char → uri_parts) (id : device_id) (uri : List Char) : Bool :=
  decide (examine (sep uri) id ≠ verdict.skip)

/-- The value of `device_uri` after one more attribute. -/
def after_attr (sep : List Char → uri_parts) (id : device_id)
    (device_uri : Option (List Char)) (a : ipp_attribute) : Option (List Char) :=
  if examined a = true ∧ accepted sep id a.text = true then some a.text else device_uri

/-- The last accepted endpoint of a sequence, `junk` when there is none. -/
def last_accepted (sep : List Char → uri_parts) (id : device_id)
    (junk : Option (List Char)) (uris : List (List Char)) : Option (List Char) :=
  match (uris.filter (accepted sep id)).getLast? with
  | some uri => some uri
  | none => junk

/-- Case-insensitive equality of two texts. -/
def ci_eq (a b : List Char) : Prop := a.map tolower = b.map tolower

instance (a b : List Char) : Decidable (ci_eq a b) := by
  unfold ci_eq; infer_instance

/-- The model rule in the words of the specification: with a `?serial=` marker
at offset `L` of the slash-stripped resource, the first `L` characters of the
identity's model against the model token (the `L` characters before the marker);
without a marker, the whole model against the whole slash-stripped resource. -/
def spec_model_check (mdl id_mdl : List Char) : Bool :=
  match serial_marker mdl with
  | some L => decide (ci_eq (id_mdl.take L) (mdl.take L))
  | none => decide (ci_eq id_mdl mdl)

/-- The serial token in the words of the specification: the text after the
marker up to the first following '&' or the end. -/
def spec_serial_token (mdl : List Char) : Option (List Char) :=
  (serial_marker mdl).map (fun k => (mdl.drop (k + 8)).takeWhile (fun c => decide (c ≠ '&')))

/-- The keywords the specification lists for the manufacturer slot. -/
def mfg_keywords : List (List Char) := ["MANUFACTURER".toList, "MFG".toList]

/-- The keywords the specification lists for the model slot. -/
def mdl_keywords : List (List Char) := ["MODEL".toList, "MDL".toList]

/-- The keywords the specification lists for the serial slot. -/
def sern_keywords : List (List Char) := ["SERIALNUMBER".toList, "SERN".toList, "SN".toList]

/-- One iteration of the field loop seen from outside: `none` when the loop is
left (lines 85 and 93), otherwise the field name, the value and the text the
next iteration starts from. -/
def scan_field (start : List Char) : Option (List Char × List Char × List Char) :=
  if start = [] then none
  else
    match start.dropWhile (· ≠ ':') with
    | [] => none
    | _ :: after =>
      some (start.takeWhile (· ≠ ':'), after.takeWhile (· ≠ ';'),
        match after.dropWhile (· ≠ ';') with
        | [] => after
        | _ :: next => next)

/-- The fields the loop scans, in scan order, as pairs of name and value. -/
def fields : Nat → List Char → List (List Char × List Char)
  | 0, _ => []
  | fuel + 1, start =>
    match scan_field start with
    | none => []
    | some (name, value, next) => (name, value) :: fields fuel next

/-- The fields scanned in the whole text. -/
def scanned_fields (s : List Char) : List (List Char × List Char) :=
  fields (s.length + 1) s

/-- The slot assignments of a list of fields, one after the other. -/
def assign_all (id : device_id) (fs : List (List Char × List Char)) : device_id :=
  fs.foldl (fun id f => assign_field f.1 f.2 id) id

/-- The field name starts, in any letter case, with the keyword. -/
def begins_with (kw name : List Char) : Bool :=
  decide (strncasecmp name kw kw.length = 0)

/-- What one field does to one slot: a field with a short keyword sets it, a
field with the long keyword sets it when it is empty. -/
def slot_step (short long : List Char → Bool) (x : Option (List Char))
    (f : List Char × List Char) : Option (List Char) :=
  if (x = none ∧ long f.1 = true) ∨ short f.1 = true then some f.2 else x

/-- The short keywords of the manufacturer slot. -/
def mfg_short (name : List Char) : Bool := begins_with "MFG".toList name

/-- The long keyword of the manufacturer slot. -/
def mfg_long (name : List Char) : Bool := begins_with "MANUFACTURER".toList name

/-- The short keywords of the model slot. -/
def mdl_short (name : List Char) : Bool := begins_with "MDL".toList name

/-- The long keyword of the model slot. -/
def mdl_long (name : List Char) : Bool := begins_with "MODEL".toList name

/-- The short keywords of the serial slot. -/
def sern_short (name : List Char) : Bool :=
  begins_with "SERN".toList name || begins_with "SN".toList name

/-- The long keyword of the serial slot. -/
def sern_long (name : List Char) : Bool := begins_with "SERIALNUMBER".toList name

/-- The accepted endpoint in the words of claim C15: the host equals the
manufacturer, the model comparison of lines 296-302 passes, and there is no
marker or the identity has a serial that equals the whole text after the marker
(all comparisons case-insensitive). -/
def spec_accepted (p : uri_parts) (mfg mdl : List Char) (sern : Option (List Char)) : Bool :=
  decide (ci_eq p.mfg mfg) && model_check (resource_mdl p.resource) mdl &&
    (match serial_marker (resource_mdl p.resource) with
     | none => true
     | some k =>
       match sern with
       | some s => decide (ci_eq ((resource_mdl p.resource).drop (k + 8)) s)
       | none => false)

/-! ## Concrete data for the evaluations -/

/-- A `device-uri` attribute of a printer group. -/
def device_uri_attr (text : List Char) : ipp_attribute :=
  ⟨IPP_TAG_PRINTER, "device-uri".toList, IPP_TAG_URI, text⟩

/-- Another attribute of a printer group (`IPP_TAG_TEXT` is 0x41). -/
def device_info_attr (text : List Char) : ipp_attribute :=
  ⟨IPP_TAG_PRINTER, "device-info".toList, 0x41, text⟩

/-- The separator libcups puts between two groups of the same tag (`IPP_TAG_ZERO`). -/
def group_separator : ipp_attribute := ⟨0, [], 0, []⟩

/-- The decoding `httpSeparateURI` gives for the URIs of the evaluations. -/
def sample_separate (uri : List Char) : uri_parts :=
  if uri = "usb://EPSON/Stylus%20D78".toList then
    ⟨"EPSON".toList, "/Stylus D78".toList⟩
  else if uri = "usb://epson/stylus%20d78".toList then
    ⟨"epson".toList, "/stylus d78".toList⟩
  else if uri = "usb://EPSON/Stylus%20D78?serial=123".toList then
    ⟨"EPSON".toList, "/Stylus D78?serial=123".toList⟩
  else if uri = "usb://EPSON/Stylus%20D78?serial=XYZ123".toList then
    ⟨"EPSON".toList, "/Stylus D78?serial=XYZ123".toList⟩
  else if uri = "usb://EPSON/Stylus%20D78?serial=123&interface=1".toList then
    ⟨"EPSON".toList, "/Stylus D78?serial=123&interface=1".toList⟩
  else if uri = "usb://EPSON/?serial=123".toList then
    ⟨"EPSON".toList, "/?serial=123".toList⟩
  else if uri = "usb://EPSON/".toList then
    ⟨"EPSON".toList, "/".toList⟩
  else if uri = "usb://HP/X".toList then
    ⟨"HP".toList, "/X".toList⟩
  else ⟨[], []⟩

/-- A CUPS server that is reached at the first attempt and answers with status
`successful-ok` and the given attributes. -/
def sample_cups (attrs : List ipp_attribute) : cups_env :=
  ⟨fun _ => true, some ⟨0, attrs⟩, sample_separate⟩

/-- The identity EPSON / Stylus D78 with an optional serial number. -/
def stylus_id (sern : Option (List Char)) : device_id :=
  ⟨none, some "EPSON".toList, some "Stylus D78".toList, sern⟩

/-- A libudev that finds every device. -/
def sample_udev : udev_env := ⟨true, "/sys".toList, fun _ => true⟩

/-! ## The string functions -/

theorem strcasecmp_eq_zero_iff (a b : List Char) : strcasecmp a b = 0 ↔ ci_eq a b := by
  unfold ci_eq
  induction a generalizing b with
  | nil => cases b <;> simp [strcasecmp]
  | cons x s ih =>
    cases b with
    | nil => simp [strcasecmp]
    | cons y t =>
      simp only [strcasecmp, List.map_cons, List.cons.injEq]
      by_cases h : tolower x = tolower y
      · simp [h, ih]
      · simp only [h, if_false, false_and, iff_false]
        split <;> decide

theorem strncasecmp_eq_zero_iff (a b : List Char) (n : Nat) :
    strncasecmp a b n = 0 ↔ ci_eq (a.take n) (b.take n) := by
  unfold ci_eq
  induction n generalizing a b with
  | zero => simp [strncasecmp]
  | succ n ih =>
    cases a with
    | nil => cases b <;> simp [strncasecmp]
    | cons x s =>
      cases b with
      | nil => simp [strncasecmp]
      | cons y t =>
        simp only [strncasecmp, List.take_succ_cons, List.map_cons, List.cons.injEq]
        by_cases h : tolower x = tolower y
        · simp [h, ih]
        · simp only [h, if_false, false_and, iff_false]
          split <;> decide

/-! ## The field loop always finishes -/

theorem length_lt_of_dropWhile_eq_cons {p : Char → Bool} {l rest : List Char} {c : Char}
    (h : l.dropWhile p = c :: rest) : rest.length < l.length := by
  have h1 : (l.dropWhile p).length ≤ l.length := (List.dropWhile_sublist p).length_le
  rw [h] at h1
  simp only [List.length_cons] at h1
  omega

theorem parse_fields_total (fuel : Nat) (start : List Char) (id : device_id)
    (h : start.length < fuel) : ∃ r, parse_fields fuel start id = outcome.val r := by
  induction fuel generalizing start id with
  | zero => omega
  | succ fuel ih =>
    unfold parse_fields
    by_cases hs : start = []
    · exact ⟨id, by simp [hs]⟩
    · simp only [hs, if_false]
      split
      · exact ⟨id, rfl⟩
      · rename_i c after hc
        have h1 := length_lt_of_dropWhile_eq_cons hc
        split
        · exact ih _ _ (by omega)
        · rename_i c2 next hn
          have h2 := length_lt_of_dropWhile_eq_cons hn
          exact ih _ _ (by omega)

theorem parse_fields_fuel (fuel fuel2 : Nat) (start : List Char) (id : device_id)
    (h : start.length < fuel) (h2 : start.length < fuel2) :
    parse_fields fuel2 start id = parse_fields fuel start id := by
  induction fuel generalizing start id fuel2 with
  | zero => omega
  | succ fuel ih =>
    cases fuel2 with
    | zero => omega
    | succ fuel2 =>
      unfold parse_fields
      by_cases hs : start = []
      · simp [hs]
      · simp only [hs, if_false]
        split
        · rfl
        · rename_i c after hc
          have h1 := length_lt_of_dropWhile_eq_cons hc
          split
          · exact ih _ _ _ (by omega) (by omega)
          · rename_i c2 next hn
            have h3 := length_lt_of_dropWhile_eq_cons hn
            exact ih _ _ _ (by omega) (by omega)

theorem parse_device_id_total (s : List Char) (id : device_id) :
    ∃ r, parse_device_id s id = outcome.val r :=
  parse_fields_total _ _ _ (Nat.lt_succ_self _)

/-! ## The two attribute loops compute the last accepted endpoint -/

theorem scan_group_fold (sep : List Char → uri_parts) (id : device_id)
    (l : List ipp_attribute) (u : Option (List Char)) :
    (scan_group sep id l u).1.length ≤ l.length ∧
    (scan_group sep id l u).1.tail.foldl (after_attr sep id) (scan_group sep id l u).2
      = l.foldl (after_attr sep id) u := by
  induction l generalizing u with
  | nil => simp [scan_group]
  | cons a next ih =>
    unfold scan_group
    by_cases hg : a.group_tag = IPP_TAG_PRINTER
    · by_cases hn : strcmp a.name "device-uri".toList = 0 ∧ a.value_tag = IPP_TAG_URI
      · have hex : examined a = true := by
          simp only [examined, hg, hn.1, hn.2, decide_True, Bool.and_self]
        simp only [hg, hn, and_self, if_true]
        cases hv : examine (sep a.text) id with
        | skip =>
          have hu : after_attr sep id u a = u := by simp [after_attr, accepted, hv]
          simp only [List.foldl_cons, hu]
          exact ⟨Nat.le_succ_of_le (ih u).1, (ih u).2⟩
        | record =>
          have hu : after_attr sep id u a = some a.text := by
            simp [after_attr, accepted, hv, hex]
          simp only [List.foldl_cons, hu]
          exact ⟨Nat.le_succ_of_le (ih _).1, (ih _).2⟩
        | final =>
          have hu : after_attr sep id u a = some a.text := by
            simp [after_attr, accepted, hv, hex]
          simp [hu]
      · have hex : examined a = false := by
          simp only [examined, hg, decide_True, Bool.true_and, Bool.and_eq_false_imp,
            decide_eq_true_eq, decide_eq_false_iff_not]
          exact fun h1 h2 => hn ⟨h1, h2⟩
        have hu : after_attr sep id u a = u := by simp [after_attr, hex]
        simp only [hg, hn, if_true, if_false, List.foldl_cons, hu]
        exact ⟨Nat.le_succ_of_le (ih u).1, (ih u).2⟩
    · have hex : examined a = false := by simp [examined, hg]
      have hu : after_attr sep id u a = u := by simp [after_attr, hex]
      simp [hg, hu]

theorem foldl_after_attr_dropWhile (sep : List Char → uri_parts) (id : device_id)
    (l : List ipp_attribute) (u : Option (List Char)) :
    (l.dropWhile (fun a => decide (a.group_tag ≠ IPP_TAG_PRINTER))).foldl (after_attr sep id) u
      = l.foldl (after_attr sep id) u := by
  induction l with
  | nil => rfl
  | cons a l ih =>
    by_cases hg : a.group_tag = IPP_TAG_PRINTER
    · have hd : ¬ (decide (a.group_tag ≠ IPP_TAG_PRINTER) = true) := by simpa using hg
      simp only [List.dropWhile_cons]
      rw [if_neg hd]
    · have hex : examined a = false := by simp [examined, hg]
      have hu : after_attr sep id u a = u := by simp [after_attr, hex]
      have hd : decide (a.group_tag ≠ IPP_TAG_PRINTER) = true := by simpa using hg
      simp only [List.dropWhile_cons]
      rw [if_pos hd, ih, List.foldl_cons, hu]

theorem scan_attrs_fold (sep : List Char → uri_parts) (id : device_id) (fuel : Nat)
    (attrs : List ipp_attribute) (u : Option (List Char)) (h : attrs.length < fuel) :
    scan_attrs sep id fuel attrs u = outcome.val (attrs.foldl (after_attr sep id) u) := by
  induction fuel generalizing attrs u with
  | zero => omega
  | succ fuel ih =>
    unfold scan_attrs
    cases attrs with
    | nil => rfl
    | cons b rest =>
      simp only
      have hd := foldl_after_attr_dropWhile sep id (b :: rest) u
      have hlen : ((b :: rest).dropWhile
          (fun a => decide (a.group_tag ≠ IPP_TAG_PRINTER))).length ≤ (b :: rest).length :=
        (List.dropWhile_sublist _).length_le
      split
      · rename_i hnil
        rw [hnil] at hd
        rw [← hd]; rfl
      · rename_i a l hcons
        rw [hcons] at hd hlen
        have hg := scan_group_fold sep id (a :: l) u
        split
        · rename_i u1 hsg
          rw [hsg] at hg
          rw [← hd, ← hg.2]; rfl
        · rename_i c next u1 hsg
          rw [hsg] at hg
          simp only [List.tail_cons, List.length_cons] at hg
          rw [ih next u1 (by simp only [List.length_cons] at hlen h; omega), hg.2, hd]

theorem scan_attrs_total (sep : List Char → uri_parts) (id : device_id)
    (attrs : List ipp_attribute) (u : Option (List Char)) :
    ∃ r, scan_attrs sep id (attrs.length + 1) attrs u = outcome.val r :=
  ⟨_, scan_attrs_fold sep id _ attrs u (Nat.lt_succ_self _)⟩

theorem foldl_after_attr_eq (sep : List Char → uri_parts) (id : device_id)
    (attrs : List ipp_attribute) (u : Option (List Char)) :
    attrs.foldl (after_attr sep id) u = last_accepted sep id u (endpoints attrs) := by
  induction attrs using List.reverseRecOn with
  | nil => rfl
  | append_singleton l a ih =>
    rw [List.foldl_append, List.foldl_cons, List.foldl_nil, ih]
    unfold after_attr
    by_cases hex : examined a = true
    · by_cases hac : accepted sep id a.text = true
      · simp [last_accepted, endpoints, List.filter_append, hex, hac, List.filter_cons]
      · simp [last_accepted, endpoints, List.filter_append, hex, hac, List.filter_cons]
    · simp [last_accepted, endpoints, List.filter_append, hex, List.filter_cons]

/-! ## One field, named by a keyword -/

theorem takeWhile_append_cons {p : Char → Bool} (a t : List Char) (b : Char)
    (ha : ∀ c ∈ a, p c = true) (hb : p b = false) : (a ++ b :: t).takeWhile p = a := by
  induction a with
  | nil => simp [List.takeWhile, hb]
  | cons c a ih =>
    have hc : p c = true := ha c (List.mem_cons_self _ _)
    simp only [List.cons_append, List.takeWhile_cons, hc, if_true]
    rw [ih (fun d hd => ha d (List.mem_cons_of_mem _ hd))]

theorem dropWhile_append_cons {p : Char → Bool} (a t : List Char) (b : Char)
    (ha : ∀ c ∈ a, p c = true) (hb : p b = false) : (a ++ b :: t).dropWhile p = b :: t := by
  induction a with
  | nil => simp [List.dropWhile, hb]
  | cons c a ih =>
    have hc : p c = true := ha c (List.mem_cons_self _ _)
    simp only [List.cons_append, List.dropWhile_cons, hc, if_true]
    exact ih (fun d hd => ha d (List.mem_cons_of_mem _ hd))

theorem takeWhile_all {p : Char → Bool} (a : List Char) (ha : ∀ c ∈ a, p c = true) :
    a.takeWhile p = a := by
  induction a with
  | nil => rfl
  | cons c a ih =>
    have hc : p c = true := ha c (List.mem_cons_self _ _)
    simp only [List.takeWhile_cons, hc, if_true]
    rw [ih (fun d hd => ha d (List.mem_cons_of_mem _ hd))]

theorem dropWhile_all {p : Char → Bool} (a : List Char) (ha : ∀ c ∈ a, p c = true) :
    a.dropWhile p = [] := by
  induction a with
  | nil => rfl
  | cons c a ih =>
    have hc : p c = true := ha c (List.mem_cons_self _ _)
    simp only [List.dropWhile_cons, hc, if_true]
    exact ih (fun d hd => ha d (List.mem_cons_of_mem _ hd))

theorem ne_of_not_mem {a : List Char} {b : Char} (h : b ∉ a) :
    ∀ c ∈ a, (decide (c ≠ b)) = true := by
  intro c hc
  simp only [ne_eq, decide_not, Bool.not_eq_true', decide_eq_false_iff_not]
  rintro rfl
  exact h hc

/-- A text of one field `name:value` gives one call of `assign_field`. -/
theorem parse_single_field (name v : List Char) (id : device_id)
    (hname : ':' ∉ name) (hv1 : ';' ∉ v) (hv2 : ':' ∉ v) :
    parse_device_id (name ++ ':' :: v) id =
      outcome.val (assign_field name v { id with full_device_id := some (name ++ ':' :: v) }) := by
  unfold parse_device_id
  have hlen : (name ++ ':' :: v).length + 1 = (name.length + v.length) + 2 := by
    simp only [List.length_append, List.length_cons]; omega
  rw [hlen]
  generalize ({ id with full_device_id := some (name ++ ':' :: v) } : device_id) = id0
  have hne : name ++ ':' :: v ≠ [] := by simp
  have hp : (decide (':' ≠ ':')) = false := by decide
  rw [parse_fields]
  simp only [hne, if_false]
  rw [takeWhile_append_cons name v ':' (ne_of_not_mem hname) hp,
    dropWhile_append_cons name v ':' (ne_of_not_mem hname) hp]
  simp only
  rw [takeWhile_all v (ne_of_not_mem hv1), dropWhile_all v (ne_of_not_mem hv1)]
  simp only
  rw [parse_fields]
  by_cases hvn : v = []
  · simp [hvn]
  · simp only [hvn, if_false]
    rw [dropWhile_all v (ne_of_not_mem hv2)]

theorem ci_eq_length {a b : List Char} (h : ci_eq a b) : a.length = b.length := by
  have := congrArg List.length h
  simpa using this

theorem strncasecmp_keyword (k k2 x : List Char) (h : ci_eq k2 k) :
    strncasecmp (k2 ++ x) k k.length = 0 := by
  rw [strncasecmp_eq_zero_iff]
  have hl := ci_eq_length h
  rw [← hl, List.take_left, hl, List.take_length]
  exact h

theorem strncasecmp_other_keyword (k k2 x kw : List Char) (n m : Nat) (h : ci_eq k2 k)
    (hmn : m ≤ n) (hmk : m ≤ k.length)
    (hne : (k.map tolower).take m ≠ (kw.map tolower).take m) :
    strncasecmp (k2 ++ x) kw n ≠ 0 := by
  intro hc
  rw [strncasecmp_eq_zero_iff] at hc
  apply hne
  have hl := ci_eq_length h
  have h1 := congrArg (List.take m) hc
  simp only [← List.map_take, List.take_take, Nat.min_eq_left hmn] at h1
  rw [List.take_append_of_le_length (by omega)] at h1
  rw [← List.map_take, ← List.map_take, ← h1, List.map_take, List.map_take, h]

theorem not_mem_of_ci_eq {k k2 : List Char} {c : Char} (h : ci_eq k2 k)
    (hc : tolower c ∉ k.map tolower) : c ∉ k2 := by
  intro hm
  apply hc
  rw [← h]
  exact List.mem_map.2 ⟨c, hm, rfl⟩

/-- What `assign_field` does, on an identity with empty slots, with a field
whose name starts with a keyword in some letter case. -/
theorem assign_field_keyword (k k2 x v : List Char) (full : Option (List Char))
    (h : ci_eq k2 k) :
    (k ∈ mfg_keywords → (assign_field (k2 ++ x) v ⟨full, none, none, none⟩).mfg = some v) ∧
    (k ∈ mdl_keywords → (assign_field (k2 ++ x) v ⟨full, none, none, none⟩).mdl = some v) ∧
    (k ∈ sern_keywords → (assign_field (k2 ++ x) v ⟨full, none, none, none⟩).sern = some v) := by
  have hself := strncasecmp_keyword k k2 x h
  refine ⟨?_, ?_, ?_⟩
  · intro hk
    simp only [mfg_keywords, List.mem_cons, List.mem_singleton, List.not_mem_nil, or_false] at hk
    rcases hk with rfl | rfl
    · have hs : strncasecmp (k2 ++ x) "MANUFACTURER".toList 12 = 0 := hself
      unfold assign_field
      rw [if_pos (Or.inl ⟨rfl, hs⟩)]
    · have hs : strncasecmp (k2 ++ x) "MFG".toList 3 = 0 := hself
      unfold assign_field
      rw [if_pos (Or.inr hs)]
  · intro hk
    simp only [mdl_keywords, List.mem_cons, List.mem_singleton, List.not_mem_nil, or_false] at hk
    rcases hk with rfl | rfl
    · have n1 := strncasecmp_other_keyword _ k2 x "MANUFACTURER".toList 12 2 h
        (by decide) (by decide) (by decide)
      have n2 := strncasecmp_other_keyword _ k2 x "MFG".toList 3 2 h
        (by decide) (by decide) (by decide)
      have hs : strncasecmp (k2 ++ x) "MODEL".toList 5 = 0 := hself
      unfold assign_field
      rw [if_neg (not_or.mpr ⟨fun hh => n1 hh.2, n2⟩), if_pos (Or.inl ⟨rfl, hs⟩)]
    · have n1 := strncasecmp_other_keyword _ k2 x "MANUFACTURER".toList 12 2 h
        (by decide) (by decide) (by decide)
      have n2 := strncasecmp_other_keyword _ k2 x "MFG".toList 3 2 h
        (by decide) (by decide) (by decide)
      have hs : strncasecmp (k2 ++ x) "MDL".toList 3 = 0 := hself
      unfold assign_field
      rw [if_neg (not_or.mpr ⟨fun hh => n1 hh.2, n2⟩), if_pos (Or.inr hs)]
  · intro hk
    simp only [sern_keywords, List.mem_cons, List.mem_singleton, List.not_mem_nil, or_false] at hk
    have hneg : ∀ kk : List Char, ci_eq k2 kk →
        (kk.map tolower).take 1 = ['s'] →
        ¬ ((none : Option (List Char)) = none ∧
            strncasecmp (k2 ++ x) "MANUFACTURER".toList 12 = 0 ∨
          strncasecmp (k2 ++ x) "MFG".toList 3 = 0) ∧
        ¬ ((none : Option (List Char)) = none ∧
            strncasecmp (k2 ++ x) "MODEL".toList 5 = 0 ∨
          strncasecmp (k2 ++ x) "MDL".toList 3 = 0) := by
      intro kk hkk hs
      have hl : 1 ≤ kk.length := by
        cases kk with
        | nil => simp at hs
        | cons a t => simp
      have n1 := strncasecmp_other_keyword kk k2 x "MANUFACTURER".toList 12 1 hkk
        (by decide) hl (by rw [hs]; decide)
      have n2 := strncasecmp_other_keyword kk k2 x "MFG".toList 3 1 hkk
        (by decide) hl (by rw [hs]; decide)
      have n3 := strncasecmp_other_keyword kk k2 x "MODEL".toList 5 1 hkk
        (by decide) hl (by rw [hs]; decide)
      have n4 := strncasecmp_other_keyword kk k2 x "MDL".toList 3 1 hkk
        (by decide) hl (by rw [hs]; decide)
      exact ⟨not_or.mpr ⟨fun hh => n1 hh.2, n2⟩, not_or.mpr ⟨fun hh => n3 hh.2, n4⟩⟩
    rcases hk with rfl | rfl | rfl
    · obtain ⟨m1, m2⟩ := hneg _ h (by decide)
      have hs : strncasecmp (k2 ++ x) "SERIALNUMBER".toList 12 = 0 := hself
      unfold assign_field
      rw [if_neg m1, if_neg m2, if_pos (Or.inl ⟨rfl, hs⟩)]
    · obtain ⟨m1, m2⟩ := hneg _ h (by decide)
      have hs : strncasecmp (k2 ++ x) "SERN".toList 4 = 0 := hself
      unfold assign_field
      rw [if_neg m1, if_neg m2, if_pos (Or.inr (Or.inl hs))]
    · obtain ⟨m1, m2⟩ := hneg _ h (by decide)
      have hs : strncasecmp (k2 ++ x) "SN".toList 2 = 0 := hself
      unfold assign_field
      rw [if_neg m1, if_neg m2, if_pos (Or.inr (Or.inr hs))]

/-! ## The matcher as a whole -/

/-- With a connection, an answer and an acceptable status, the matcher returns
the last accepted endpoint, and the entry value of `device_uri` when no
endpoint is accepted. -/
theorem find_matching_device_uri_eq (c : cups_env) (junk : Option (List Char)) (id : device_id)
    (answer : ipp_t) (hc : (connect_loop c.connect 6 0).1 = true) (ha : c.answer = some answer)
    (hs : answer.status_code ≤ IPP_OK_CONFLICT) :
    find_matching_device_uri c junk id =
      outcome.val (last_accepted c.httpSeparateURI id junk (endpoints answer.attrs)) := by
  unfold find_matching_device_uri
  rw [if_neg (by simp [hc]), ha]
  simp only
  rw [if_neg (by omega), scan_attrs_fold _ _ _ _ _ (Nat.lt_succ_self _), foldl_after_attr_eq]

/-- The loop of lines 355-357 does not end when the two first characters agree. -/
theorem prefix_loop_stuck (mfg mdl : List Char) (h0 : mfg.get? 0 ≠ none)
    (h : mfg.get? 0 = mdl.get? 0) (fuel : Nat) : prefix_loop mfg mdl 0 fuel = outcome.hang := by
  induction fuel with
  | zero => rfl
  | succ fuel ih =>
    unfold prefix_loop
    rw [if_pos h0, if_neg (fun hh => hh h), ih]

/-- The normalization step never ends when manufacturer and model start with
the same character. -/
theorem normalize_hangs (fuel : Nat) (id : device_id) (mfg mdl : List Char)
    (hm : id.mfg = some mfg) (hd : id.mdl = some mdl) (h0 : mfg.get? 0 ≠ none)
    (h : mfg.get? 0 = mdl.get? 0) : normalize fuel id = outcome.hang := by
  unfold normalize
  rw [hm, hd]
  simp only
  rw [prefix_loop_stuck mfg mdl h0 h]
  rfl

/-- In every other case the normalization step ends at once and leaves the
identity as it is. -/
theorem normalize_unchanged (fuel : Nat) (id : device_id) (mfg mdl : List Char)
    (hm : id.mfg = some mfg) (hd : id.mdl = some mdl)
    (h : mfg.get? 0 = none ∨ mfg.get? 0 ≠ mdl.get? 0) :
    normalize (fuel + 1) id = outcome.val id := by
  obtain ⟨f, m, d, s⟩ := id
  simp only at hm hd
  subst hm hd
  unfold normalize
  simp only
  by_cases h0 : mfg.get? 0 = none
  · unfold prefix_loop
    rw [if_neg (fun hh => hh h0)]
    simp only [outcome.bind]
    rw [if_pos h0, List.drop_zero]
  · have h1 : mfg.get? 0 ≠ mdl.get? 0 := h.resolve_left h0
    unfold prefix_loop
    rw [if_pos h0, if_pos h1]
    simp only [outcome.bind]
    rw [if_neg h0]

/-- Outside the case of a marker at offset 0, the model comparison of the code
is the rule of the specification. -/
theorem model_check_eq_spec (mdl id_mdl : List Char) (h : serial_marker mdl ≠ some 0) :
    model_check mdl id_mdl = spec_model_check mdl id_mdl := by
  unfold model_check spec_model_check resource_mdllen
  cases hm : serial_marker mdl with
  | none =>
    simp only [ne_eq, not_true_eq_false, if_false]
    rw [decide_eq_decide, strcasecmp_eq_zero_iff]
    unfold ci_eq
    exact eq_comm
  | some L =>
    have hL : L ≠ 0 := by
      rintro rfl
      exact h hm
    simp only [ne_eq, hL, not_false_eq_true, if_true]
    rw [decide_eq_decide, strncasecmp_eq_zero_iff]
    unfold ci_eq
    exact eq_comm

theorem last_accepted_of_filter_nil (sep : List Char → uri_parts) (id : device_id)
    (junk : Option (List Char)) (uris : List (List Char))
    (h : uris.filter (accepted sep id) = []) : last_accepted sep id junk uris = junk := by
  unfold last_accepted
  rw [h]
  rfl

theorem last_accepted_of_filter_concat (sep : List Char → uri_parts) (id : device_id)
    (junk : Option (List Char)) (uris l : List (List Char)) (uri : List Char)
    (h : uris.filter (accepted sep id) = l ++ [uri]) :
    last_accepted sep id junk uris = some uri := by
  unfold last_accepted
  rw [h, List.getLast?_append]
  rfl

/-- An endpoint whose host differs from the manufacturer is skipped. -/
theorem examine_skip_of_host (p : uri_parts) (id : device_id)
    (h : ∀ m, id.mfg = some m → ¬ ci_eq p.mfg m) : examine p id = verdict.skip := by
  unfold examine
  split
  · rename_i m d hm hd
    have h1 : strcasecmp p.mfg m ≠ 0 := fun hh => h m hm ((strcasecmp_eq_zero_iff _ _).1 hh)
    simp only [h1, ne_eq, not_false_eq_true, if_true]
  · rfl

/-- An endpoint with a marker is skipped when the identity has no serial. -/
theorem examine_skip_of_no_sern (p : uri_parts) (id : device_id) (hs : id.sern = none)
    (h : serial_marker (resource_mdl p.resource) ≠ none) : examine p id = verdict.skip := by
  obtain ⟨k, hk⟩ := Option.ne_none_iff_exists'.1 h
  have hser : resource_serial (resource_mdl p.resource)
      = some ((resource_mdl p.resource).drop (k + 8)) := by
    simp [resource_serial, hk]
  obtain ⟨f, m, d, s⟩ := id
  simp only at hs
  subst hs
  cases m with
  | none => rfl
  | some m =>
    cases d with
    | none => rfl
    | some d =>
      simp only [examine, hser]
      split_ifs <;> rfl

/-- Without an accepted endpoint the matcher returns the entry value of `device_uri`. -/
theorem find_matching_device_uri_of_all_skipped (c : cups_env) (junk : Option (List Char))
    (id : device_id) (answer : ipp_t) (hc : (connect_loop c.connect 6 0).1 = true)
    (ha : c.answer = some answer) (hs : answer.status_code ≤ IPP_OK_CONFLICT)
    (h : ∀ uri ∈ endpoints answer.attrs, examine (c.httpSeparateURI uri) id = verdict.skip) :
    find_matching_device_uri c junk id = outcome.val junk := by
  rw [find_matching_device_uri_eq c junk id answer hc ha hs, last_accepted_of_filter_nil]
  rw [List.filter_eq_nil_iff]
  intro uri hu
  simp [accepted, h uri hu]

/-! ## The matcher: serial numbers -/

/-- C1, evaluated on the code. The first endpoint carries the serial 123 and
passes the manufacturer, model and serial checks (`verdict.final`); the next
printer group holds a serial-less endpoint that passes the manufacturer and
model checks. The matcher returns the URI of the second endpoint: the `break`
of line 312 leaves the inner loop only, and the outer loop goes on. -/
theorem serial_match_is_not_final :
    examine (sample_separate "usb://EPSON/Stylus%20D78?serial=123".toList)
      (stylus_id (some "123".toList)) = verdict.final ∧
    find_matching_device_uri
      (sample_cups [device_uri_attr "usb://EPSON/Stylus%20D78?serial=123".toList,
        group_separator, device_uri_attr "usb://EPSON/Stylus%20D78".toList])
      none (stylus_id (some "123".toList))
      = outcome.val (some "usb://EPSON/Stylus%20D78".toList) := by
  decide

/-- C2, evaluated on the code. With the two endpoints of the example in the
specification the serial-bearing one is returned. With a further serial-less endpoint
after it, that last endpoint is returned. With an empty model in the identity
and in both endpoints, the serial-bearing endpoint is skipped by the model
comparison and the serial-less one is returned. -/
theorem serial_priority_evaluated :
    find_matching_device_uri
      (sample_cups [device_uri_attr "usb://EPSON/Stylus%20D78".toList, group_separator,
        device_uri_attr "usb://EPSON/Stylus%20D78?serial=123".toList])
      none (stylus_id (some "123".toList))
      = outcome.val (some "usb://EPSON/Stylus%20D78?serial=123".toList) ∧
    find_matching_device_uri
      (sample_cups [device_uri_attr "usb://EPSON/Stylus%20D78".toList, group_separator,
        device_uri_attr "usb://EPSON/Stylus%20D78?serial=123".toList, group_separator,
        device_uri_attr "usb://epson/stylus%20d78".toList])
      none (stylus_id (some "123".toList))
      = outcome.val (some "usb://epson/stylus%20d78".toList) ∧
    find_matching_device_uri
      (sample_cups [device_uri_attr "usb://EPSON/".toList, group_separator,
        device_uri_attr "usb://EPSON/?serial=123".toList])
      none ⟨none, some "EPSON".toList, some [], some "123".toList⟩
      = outcome.val (some "usb://EPSON/".toList) := by
  decide

/-- C3, evaluated on the code. For the identity EPSON / X and the one endpoint
HP / X no endpoint is accepted, and the matcher returns whatever `device_uri`
held on entry (line 209 declares it without an initialiser): a value that is
not `NULL` is returned as the match. -/
theorem manufacturer_mismatch_returns_entry_value :
    (∀ junk : Option (List Char),
      find_matching_device_uri (sample_cups [device_uri_attr "usb://HP/X".toList]) junk
        ⟨none, some "EPSON".toList, some "X".toList, none⟩ = outcome.val junk) ∧
    find_matching_device_uri (sample_cups [device_uri_attr "usb://HP/X".toList])
        (some "stale".toList) ⟨none, some "EPSON".toList, some "X".toList, none⟩
      ≠ outcome.val none :=
  ⟨fun junk => find_matching_device_uri_of_all_skipped _ junk _ ⟨0, _⟩
      (by decide) rfl (by decide) (by decide),
    by decide⟩

/-- C4, evaluated on the code. For the identity EPSON / Stylus D78 without a
serial and the one endpoint EPSON, /Stylus D78?serial=XYZ123, the endpoint is
skipped, and the matcher returns whatever `device_uri` held on entry: a value
that is not `NULL` is returned as the match. -/
theorem missing_serial_returns_entry_value :
    examine (sample_separate "usb://EPSON/Stylus%20D78?serial=XYZ123".toList) (stylus_id none)
      = verdict.skip ∧
    (∀ junk : Option (List Char),
      find_matching_device_uri
        (sample_cups [device_uri_attr "usb://EPSON/Stylus%20D78?serial=XYZ123".toList]) junk
        (stylus_id none) = outcome.val junk) ∧
    find_matching_device_uri
        (sample_cups [device_uri_attr "usb://EPSON/Stylus%20D78?serial=XYZ123".toList])
        (some "stale".toList) (stylus_id none)
      ≠ outcome.val none :=
  ⟨by decide,
    fun junk => find_matching_device_uri_of_all_skipped _ junk _ ⟨0, _⟩
      (by decide) rfl (by decide) (by decide),
    by decide⟩

/-- C5, evaluated on the code. The resource /?serial=123 has the marker at
offset 0 of the slash-stripped text, so the model token has length 0 and the
rule of the specification lets every model through. The code takes
`mdllen == 0` for "no marker" and compares the whole text ?serial=123 with the
model: the endpoint is skipped. -/
theorem empty_model_token_is_rejected :
    serial_marker (resource_mdl "/?serial=123".toList) = some 0 ∧
    spec_model_check (resource_mdl "/?serial=123".toList) "Stylus D78".toList = true ∧
    model_check (resource_mdl "/?serial=123".toList) "Stylus D78".toList = false ∧
    examine (sample_separate "usb://EPSON/?serial=123".toList) (stylus_id (some "123".toList))
      = verdict.skip := by
  decide

/-! ## The add path -/

/-- C6, evaluated on the code. For manufacturer EPSON and model EPSONStylus D78
the loop of lines 355-357 never ends, whatever the fuel: the body does not
advance `i`. For the model Stylus D78 one evaluation of the condition ends the
loop and the identity is unchanged. -/
theorem normalization_does_not_strip (fuel : Nat) :
    normalize fuel ⟨none, some "EPSON".toList, some "EPSONStylus D78".toList, none⟩
      = outcome.hang ∧
    normalize (fuel + 1) ⟨none, some "EPSON".toList, some "Stylus D78".toList, none⟩
      = outcome.val ⟨none, some "EPSON".toList, some "Stylus D78".toList, none⟩ := by
  constructor
  · exact normalize_hangs fuel _ _ _ rfl rfl (by decide) (by decide)
  · rfl

/-! ## The parser -/

/-- C7, evaluated on the code. A later MFG, MDL or SN field replaces the value
of an earlier one, also after a MANUFACTURER field; the example of the
specification gives manufacturer A. -/
theorem later_short_keyword_replaces :
    parse_device_id "MFG:A;MFG:B".toList device_id.empty
      = outcome.val ⟨some "MFG:A;MFG:B".toList, some "B".toList, none, none⟩ ∧
    parse_device_id "MANUFACTURER:A;MFG:B".toList device_id.empty
      = outcome.val ⟨some "MANUFACTURER:A;MFG:B".toList, some "B".toList, none, none⟩ ∧
    parse_device_id "MDL:A;MDL:B;SN:1;SN:2".toList device_id.empty
      = outcome.val ⟨some "MDL:A;MDL:B;SN:1;SN:2".toList, none, some "B".toList,
          some "2".toList⟩ ∧
    parse_device_id "MFG:A;MANUFACTURER:B;MDL:C".toList device_id.empty
      = outcome.val ⟨some "MFG:A;MANUFACTURER:B;MDL:C".toList, some "A".toList,
          some "C".toList, none⟩ := by
  decide

/-- C8. For a keyword `k`, a spelling `k2` of it in any letter case, a rest `x`
of the field name without ':' and a value `v` without ';' and ':', parsing
`k2 ++ x ++ ":" ++ v` from the empty identity returns an identity whose slot
for `k` is exactly `v`. -/
theorem prefix_keyword_acceptance (k k2 x v : List Char) (hcase : ci_eq k2 k)
    (hx : ':' ∉ x) (hv1 : ';' ∉ v) (hv2 : ':' ∉ v) :
    ∃ r, parse_device_id (k2 ++ x ++ ':' :: v) device_id.empty = outcome.val r ∧
      (k ∈ mfg_keywords → r.mfg = some v) ∧
      (k ∈ mdl_keywords → r.mdl = some v) ∧
      (k ∈ sern_keywords → r.sern = some v) := by
  obtain ⟨r, hr⟩ := parse_device_id_total (k2 ++ x ++ ':' :: v) device_id.empty
  have hkey := assign_field_keyword k k2 x v (some (k2 ++ x ++ ':' :: v)) hcase
  have hval : ':' ∉ k.map tolower →
      r = assign_field (k2 ++ x) v ⟨some (k2 ++ x ++ ':' :: v), none, none, none⟩ := by
    intro hk
    have hk2 : ':' ∉ k2 := not_mem_of_ci_eq hcase hk
    have hname : ':' ∉ k2 ++ x := by
      simp only [List.mem_append, not_or]
      exact ⟨hk2, hx⟩
    have hp := parse_single_field (k2 ++ x) v device_id.empty hname hv1 hv2
    rw [hr] at hp
    injection hp
  refine ⟨r, hr, ?_, ?_, ?_⟩
  · intro hk
    have hc : ':' ∉ k.map tolower := by
      simp only [mfg_keywords, List.mem_cons, List.mem_singleton, List.not_mem_nil,
        or_false] at hk
      rcases hk with rfl | rfl <;> decide
    rw [hval hc]
    exact hkey.1 hk
  · intro hk
    have hc : ':' ∉ k.map tolower := by
      simp only [mdl_keywords, List.mem_cons, List.mem_singleton, List.not_mem_nil,
        or_false] at hk
      rcases hk with rfl | rfl <;> decide
    rw [hval hc]
    exact hkey.2.1 hk
  · intro hk
    have hc : ':' ∉ k.map tolower := by
      simp only [sern_keywords, List.mem_cons, List.mem_singleton, List.not_mem_nil,
        or_false] at hk
      rcases hk with rfl | rfl | rfl <;> decide
    rw [hval hc]
    exact hkey.2.2 hk

/-- C8 at the keyword MFG spelled mFg, the rest X;y and the value " Foo ",
together with the example of the specification. -/
theorem prefix_keyword_acceptance_witness :
    (ci_eq "mFg".toList "MFG".toList ∧ ':' ∉ "X;y".toList ∧ ';' ∉ " Foo ".toList ∧
      ':' ∉ " Foo ".toList) ∧
    (∃ r, parse_device_id ("mFg".toList ++ "X;y".toList ++ ':' :: " Foo ".toList)
        device_id.empty = outcome.val r ∧ r.mfg = some " Foo ".toList) ∧
    parse_device_id "MANUFACTURERX:Foo;MODELX:Bar".toList device_id.empty
      = outcome.val ⟨some "MANUFACTURERX:Foo;MODELX:Bar".toList, some "Foo".toList,
          some "Bar".toList, none⟩ :=
  ⟨by decide,
    (prefix_keyword_acceptance "MFG".toList "mFg".toList "X;y".toList " Foo ".toList
      (by decide) (by decide) (by decide) (by decide)).imp
      (fun _ h => ⟨h.1, h.2.1 (by decide)⟩),
    by decide⟩

/-! ## The matcher: the serial token -/

/-- C9, evaluated on the code. In the resource /Stylus D78?serial=123&interface=1
the pointer `serial` is compared up to the end of the text, `seriallen` (the
`strspn` of line 288, the number of leading '&') is 0 and is never read, and the
token of the specification is 123. The endpoint is skipped for the identity
EPSON / Stylus D78 / 123, and the matcher returns the entry value of `device_uri`. -/
theorem serial_token_runs_to_the_end (junk : Option (List Char)) :
    resource_serial (resource_mdl "/Stylus D78?serial=123&interface=1".toList)
      = some "123&interface=1".toList ∧
    resource_seriallen (resource_mdl "/Stylus D78?serial=123&interface=1".toList) = some 0 ∧
    spec_serial_token (resource_mdl "/Stylus D78?serial=123&interface=1".toList)
      = some "123".toList ∧
    find_matching_device_uri
      (sample_cups [device_uri_attr "usb://EPSON/Stylus%20D78?serial=123&interface=1".toList])
      junk (stylus_id (some "123".toList)) = outcome.val junk :=
  ⟨by decide, by decide, by decide,
    find_matching_device_uri_of_all_skipped _ junk _ ⟨0, _⟩ (by decide) rfl (by decide) (by decide)⟩

/-! ## The add path, end to end -/

theorem device_id_from_devpath_eq (u : udev_env) (devpath : List Char)
    (hu : u.udev_new_ok = true) (hd : u.device_exists (u.sys_path ++ devpath) = true) :
    device_id_from_devpath u devpath = outcome.val fixed_id := by
  unfold device_id_from_devpath
  simp only [hu, hd, Bool.true_eq_false, if_false]
  decide

theorem normalize_fixed_id (fuel : Nat) (hf : 0 < fuel) :
    normalize fuel fixed_id = outcome.val fixed_id := by
  obtain ⟨n, rfl⟩ := Nat.exists_eq_succ_of_ne_zero (Nat.pos_iff_ne_zero.1 hf)
  rfl

theorem do_add_eq (u : udev_env) (c : cups_env) (junk : Option (List Char)) (fuel : Nat)
    (cmd devpath : List Char) (hu : u.udev_new_ok = true)
    (hd : u.device_exists (u.sys_path ++ devpath) = true) (hf : 0 < fuel) :
    do_add u c junk fuel cmd devpath =
      (find_matching_device_uri c junk fixed_id).bind fun device_uri =>
        match device_uri with
        | some uri => outcome.val (remove_cmd cmd uri, (0 : Int))
        | none => outcome.val ([], (0 : Int)) := by
  unfold do_add
  rw [device_id_from_devpath_eq u devpath hu hd]
  simp only [outcome.bind]
  rw [normalize_fixed_id fuel hf]

/-- C10. When the device lookup succeeds, the raw id of line 185 parses to
EPSON / Stylus D78 without serial; whenever the matcher returns a URI `uri`,
`do_add` called with program name `cmd` writes REMOVE_CMD=", `cmd`, " remove ",
`uri`, the closing quote and a newline, each text verbatim, and returns 0; and
this is what happens when the connection is made within the six attempts, the
answer has an acceptable status and its only endpoint separates into host EPSON
and resource /Stylus D78. -/
theorem add_output (u : udev_env) (c : cups_env) (junk : Option (List Char)) (fuel : Nat)
    (cmd devpath : List Char) (hu : u.udev_new_ok = true)
    (hd : u.device_exists (u.sys_path ++ devpath) = true) (hf : 0 < fuel) :
    device_id_from_devpath u devpath = outcome.val
      ⟨ieee1284_id, some "EPSON".toList, some "Stylus D78".toList, none⟩ ∧
    (∀ uri, find_matching_device_uri c junk fixed_id = outcome.val (some uri) →
      do_add u c junk fuel cmd devpath = outcome.val
        ("REMOVE_CMD=\"".toList ++ cmd ++ " remove ".toList ++ uri ++ "\"\n".toList, 0)) ∧
    (∀ answer uri, (connect_loop c.connect 6 0).1 = true → c.answer = some answer →
      answer.status_code ≤ IPP_OK_CONFLICT → endpoints answer.attrs = [uri] →
      c.httpSeparateURI uri = ⟨"EPSON".toList, "/Stylus D78".toList⟩ →
      do_add u c junk fuel cmd devpath = outcome.val
        ("REMOVE_CMD=\"".toList ++ cmd ++ " remove ".toList ++ uri ++ "\"\n".toList, 0)) := by
  have hgen : ∀ uri, find_matching_device_uri c junk fixed_id = outcome.val (some uri) →
      do_add u c junk fuel cmd devpath = outcome.val
        ("REMOVE_CMD=\"".toList ++ cmd ++ " remove ".toList ++ uri ++ "\"\n".toList, 0) := by
    intro uri h
    rw [do_add_eq u c junk fuel cmd devpath hu hd hf, h]
    rfl
  refine ⟨device_id_from_devpath_eq u devpath hu hd, hgen, ?_⟩
  intro answer uri hc ha hs he hp
  apply hgen
  rw [find_matching_device_uri_eq c junk fixed_id answer hc ha hs, he]
  have hacc : accepted c.httpSeparateURI fixed_id uri = true := by
    unfold accepted
    rw [hp]
    decide
  rw [last_accepted_of_filter_concat _ _ _ _ [] uri (by simp [List.filter, hacc])]

/-- C10 at the program name prog and the one endpoint usb://EPSON/Stylus%20D78. -/
theorem add_output_witness :
    (sample_udev.udev_new_ok = true ∧
      sample_udev.device_exists (sample_udev.sys_path ++ "/devices/usb1/1-1".toList) = true ∧
      0 < 1) ∧
    do_add sample_udev (sample_cups [device_uri_attr "usb://EPSON/Stylus%20D78".toList]) none 1
        "prog".toList "/devices/usb1/1-1".toList
      = outcome.val ("REMOVE_CMD=\"prog remove usb://EPSON/Stylus%20D78\"\n".toList, 0) :=
  ⟨by decide,
    (add_output sample_udev (sample_cups [device_uri_attr "usb://EPSON/Stylus%20D78".toList])
      none 1 "prog".toList "/devices/usb1/1-1".toList rfl rfl (by decide)).2.2
      ⟨0, [device_uri_attr "usb://EPSON/Stylus%20D78".toList]⟩
      "usb://EPSON/Stylus%20D78".toList (by decide) rfl (by decide) (by decide) (by decide)⟩

/-! ## The scanned fields -/

theorem strcmp_eq_zero_iff (a b : List Char) : strcmp a b = 0 ↔ a = b := by
  induction a generalizing b with
  | nil => cases b <;> simp [strcmp]
  | cons x s ih =>
    cases b with
    | nil => simp [strcmp]
    | cons y t =>
      simp only [strcmp, List.cons.injEq]
      by_cases h : x = y
      · simp [h, ih]
      · simp only [h, if_false, false_and, iff_false]
        split <;> decide

theorem parse_fields_step (fuel : Nat) (start : List Char) (id : device_id) :
    parse_fields (fuel + 1) start id =
      match scan_field start with
      | none => outcome.val id
      | some (name, value, next) => parse_fields fuel next (assign_field name value id) := by
  rw [parse_fields]
  unfold scan_field
  by_cases hs : start = []
  · simp [hs]
  · simp only [hs, if_false]
    cases hd : start.dropWhile (· ≠ ':') with
    | nil => rfl
    | cons c after =>
      simp only
      cases hn : after.dropWhile (· ≠ ';') with
      | nil => rfl
      | cons c2 next => rfl

theorem scan_field_lt {start name value next : List Char}
    (h : scan_field start = some (name, value, next)) : next.length < start.length := by
  unfold scan_field at h
  by_cases hs : start = []
  · simp [hs] at h
  · simp only [hs, if_false] at h
    cases hd : start.dropWhile (· ≠ ':') with
    | nil => rw [hd] at h; simp at h
    | cons c after =>
      rw [hd] at h
      simp only [Option.some.injEq, Prod.mk.injEq] at h
      have h1 := length_lt_of_dropWhile_eq_cons hd
      cases hn : after.dropWhile (· ≠ ';') with
      | nil =>
        rw [hn] at h
        rw [← h.2.2]
        exact h1
      | cons c2 nx =>
        rw [hn] at h
        have h2 := length_lt_of_dropWhile_eq_cons hn
        rw [← h.2.2]
        simp only at h2 ⊢
        omega

theorem parse_fields_eq_assign_all (fuel : Nat) (start : List Char) (id : device_id)
    (h : start.length < fuel) :
    parse_fields fuel start id = outcome.val (assign_all id (fields fuel start)) := by
  induction fuel generalizing start id with
  | zero => omega
  | succ fuel ih =>
    rw [parse_fields_step, fields]
    cases hsf : scan_field start with
    | none => rfl
    | some t =>
      obtain ⟨name, value, next⟩ := t
      have hlt := scan_field_lt hsf
      simp only
      rw [ih next _ (by omega)]
      rfl

theorem parse_device_id_eq (s : List Char) (id : device_id) :
    parse_device_id s id =
      outcome.val (assign_all { id with full_device_id := some s } (scanned_fields s)) :=
  parse_fields_eq_assign_all _ _ _ (Nat.lt_succ_self _)

theorem lower_take_of_strncasecmp (name kw : List Char) (n m : Nat)
    (h : strncasecmp name kw n = 0) (hm : m ≤ n) :
    (name.map tolower).take m = (kw.map tolower).take m := by
  rw [strncasecmp_eq_zero_iff] at h
  have h1 := congrArg (List.take m) h
  simp only [← List.map_take, List.take_take, Nat.min_eq_left hm] at h1
  rw [← List.map_take, ← List.map_take]
  exact h1

/-- A field name cannot start with two keywords that differ in their first `m`
characters. -/
theorem keywords_exclude (name k1 k2 : List Char) (n1 n2 m : Nat) (hm1 : m ≤ n1)
    (hm2 : m ≤ n2) (hne : (k1.map tolower).take m ≠ (k2.map tolower).take m)
    (h1 : strncasecmp name k1 n1 = 0) : strncasecmp name k2 n2 ≠ 0 := by
  intro h2
  apply hne
  rw [← lower_take_of_strncasecmp name k1 n1 m h1 hm1,
    ← lower_take_of_strncasecmp name k2 n2 m h2 hm2]

/-- The slot assignments of one field, slot by slot. -/
theorem assign_field_slots (n v : List Char) (id : device_id) :
    assign_field n v id =
      ⟨id.full_device_id, slot_step mfg_short mfg_long id.mfg (n, v),
        slot_step mdl_short mdl_long id.mdl (n, v),
        slot_step sern_short sern_long id.sern (n, v)⟩ := by
  have ab1 : strncasecmp n "MANUFACTURER".toList 12 = 0 → strncasecmp n "MODEL".toList 5 ≠ 0 :=
    keywords_exclude n _ _ 12 5 2 (by decide) (by decide) (by decide)
  have ab2 : strncasecmp n "MANUFACTURER".toList 12 = 0 → strncasecmp n "MDL".toList 3 ≠ 0 :=
    keywords_exclude n _ _ 12 3 2 (by decide) (by decide) (by decide)
  have ab3 : strncasecmp n "MFG".toList 3 = 0 → strncasecmp n "MODEL".toList 5 ≠ 0 :=
    keywords_exclude n _ _ 3 5 2 (by decide) (by decide) (by decide)
  have ab4 : strncasecmp n "MFG".toList 3 = 0 → strncasecmp n "MDL".toList 3 ≠ 0 :=
    keywords_exclude n _ _ 3 3 2 (by decide) (by decide) (by decide)
  have ac1 : strncasecmp n "MANUFACTURER".toList 12 = 0 →
      strncasecmp n "SERIALNUMBER".toList 12 ≠ 0 :=
    keywords_exclude n _ _ 12 12 1 (by decide) (by decide) (by decide)
  have ac2 : strncasecmp n "MANUFACTURER".toList 12 = 0 → strncasecmp n "SERN".toList 4 ≠ 0 :=
    keywords_exclude n _ _ 12 4 1 (by decide) (by decide) (by decide)
  have ac3 : strncasecmp n "MANUFACTURER".toList 12 = 0 → strncasecmp n "SN".toList 2 ≠ 0 :=
    keywords_exclude n _ _ 12 2 1 (by decide) (by decide) (by decide)
  have ac4 : strncasecmp n "MFG".toList 3 = 0 → strncasecmp n "SERIALNUMBER".toList 12 ≠ 0 :=
    keywords_exclude n _ _ 3 12 1 (by decide) (by decide) (by decide)
  have ac5 : strncasecmp n "MFG".toList 3 = 0 → strncasecmp n "SERN".toList 4 ≠ 0 :=
    keywords_exclude n _ _ 3 4 1 (by decide) (by decide) (by decide)
  have ac6 : strncasecmp n "MFG".toList 3 = 0 → strncasecmp n "SN".toList 2 ≠ 0 :=
    keywords_exclude n _ _ 3 2 1 (by decide) (by decide) (by decide)
  have bc1 : strncasecmp n "MODEL".toList 5 = 0 → strncasecmp n "SERIALNUMBER".toList 12 ≠ 0 :=
    keywords_exclude n _ _ 5 12 1 (by decide) (by decide) (by decide)
  have bc2 : strncasecmp n "MODEL".toList 5 = 0 → strncasecmp n "SERN".toList 4 ≠ 0 :=
    keywords_exclude n _ _ 5 4 1 (by decide) (by decide) (by decide)
  have bc3 : strncasecmp n "MODEL".toList 5 = 0 → strncasecmp n "SN".toList 2 ≠ 0 :=
    keywords_exclude n _ _ 5 2 1 (by decide) (by decide) (by decide)
  have bc4 : strncasecmp n "MDL".toList 3 = 0 → strncasecmp n "SERIALNUMBER".toList 12 ≠ 0 :=
    keywords_exclude n _ _ 3 12 1 (by decide) (by decide) (by decide)
  have bc5 : strncasecmp n "MDL".toList 3 = 0 → strncasecmp n "SERN".toList 4 ≠ 0 :=
    keywords_exclude n _ _ 3 4 1 (by decide) (by decide) (by decide)
  have bc6 : strncasecmp n "MDL".toList 3 = 0 → strncasecmp n "SN".toList 2 ≠ 0 :=
    keywords_exclude n _ _ 3 2 1 (by decide) (by decide) (by decide)
  have e1 : (mfg_long n = true) = (strncasecmp n "MANUFACTURER".toList 12 = 0) :=
    decide_eq_true_eq
  have e2 : (mfg_short n = true) = (strncasecmp n "MFG".toList 3 = 0) := decide_eq_true_eq
  have e3 : (mdl_long n = true) = (strncasecmp n "MODEL".toList 5 = 0) := decide_eq_true_eq
  have e4 : (mdl_short n = true) = (strncasecmp n "MDL".toList 3 = 0) := decide_eq_true_eq
  have e5 : (sern_long n = true) = (strncasecmp n "SERIALNUMBER".toList 12 = 0) :=
    decide_eq_true_eq
  have e6 : (sern_short n = true) =
      (strncasecmp n "SERN".toList 4 = 0 ∨ strncasecmp n "SN".toList 2 = 0) := by
    unfold sern_short begins_with
    rw [Bool.or_eq_true, decide_eq_true_eq, decide_eq_true_eq]
    rfl
  obtain ⟨f, m, d, sn⟩ := id
  unfold assign_field slot_step
  simp only [e1, e2, e3, e4, e5, e6]
  generalize strncasecmp n "MANUFACTURER".toList 12 = a1 at *
  generalize strncasecmp n "MFG".toList 3 = a2 at *
  generalize strncasecmp n "MODEL".toList 5 = b1 at *
  generalize strncasecmp n "MDL".toList 3 = b2 at *
  generalize strncasecmp n "SERIALNUMBER".toList 12 = c1 at *
  generalize strncasecmp n "SERN".toList 4 = c2 at *
  generalize strncasecmp n "SN".toList 2 = c3 at *
  by_cases h1 : a1 = 0 <;> by_cases h2 : a2 = 0 <;> by_cases h3 : b1 = 0 <;>
    by_cases h4 : b2 = 0 <;> by_cases h5 : c1 = 0 <;> by_cases h6 : c2 = 0 <;>
    by_cases h7 : c3 = 0 <;> simp_all <;> split_ifs <;> rfl

theorem assign_all_slots (id : device_id) (fs : List (List Char × List Char)) :
    assign_all id fs =
      ⟨id.full_device_id, fs.foldl (slot_step mfg_short mfg_long) id.mfg,
        fs.foldl (slot_step mdl_short mdl_long) id.mdl,
        fs.foldl (slot_step sern_short sern_long) id.sern⟩ := by
  unfold assign_all
  induction fs generalizing id with
  | nil => rfl
  | cons f fs ih =>
    rw [List.foldl_cons, ih, assign_field_slots]
    rfl

/-- A slot holds the value of the last field with a short keyword. -/
theorem slot_last_short (S L : List Char → Bool) (fs : List (List Char × List Char))
    (x : Option (List Char)) (f : List Char × List Char)
    (h : (fs.filter (fun g => S g.1)).getLast? = some f) :
    fs.foldl (slot_step S L) x = some f.2 := by
  induction fs using List.reverseRecOn with
  | nil => simp at h
  | append_singleton l a ih =>
    rw [List.foldl_append, List.foldl_cons, List.foldl_nil]
    by_cases ha : S a.1 = true
    · have hf : (l ++ [a]).filter (fun g => S g.1) = l.filter (fun g => S g.1) ++ [a] := by
        simp [List.filter_append, List.filter_cons, ha]
      rw [hf, List.getLast?_append] at h
      simp only [List.getLast?_singleton, Option.or, Option.some.injEq] at h
      subst h
      simp [slot_step, ha]
    · have hf : (l ++ [a]).filter (fun g => S g.1) = l.filter (fun g => S g.1) := by
        simp [List.filter_append, List.filter_cons, ha]
      rw [hf] at h
      rw [ih h]
      simp [slot_step, ha]

/-- Without a field with a short keyword a filled slot keeps its value. -/
theorem slot_keep (S L : List Char → Bool) (fs : List (List Char × List Char))
    (a : List Char) (h : ∀ g ∈ fs, S g.1 = false) :
    fs.foldl (slot_step S L) (some a) = some a := by
  induction fs with
  | nil => rfl
  | cons f fs ih =>
    have hf : S f.1 = false := h f (List.mem_cons_self _ _)
    have hs : slot_step S L (some a) f = some a := by simp [slot_step, hf]
    rw [List.foldl_cons, hs]
    exact ih (fun g hg => h g (List.mem_cons_of_mem _ hg))

/-- A filled slot stays filled. -/
theorem slot_none (S L : List Char → Bool) (fs : List (List Char × List Char))
    (x : Option (List Char)) (h : fs.foldl (slot_step S L) x = none) : x = none := by
  induction fs generalizing x with
  | nil => exact h
  | cons f fs ih =>
    rw [List.foldl_cons] at h
    have h1 := ih _ h
    unfold slot_step at h1
    split_ifs at h1
    exact h1

/-- Running the same fields over the slot they left changes nothing. -/
theorem slot_idem (S L : List Char → Bool) (fs : List (List Char × List Char))
    (x : Option (List Char)) :
    fs.foldl (slot_step S L) (fs.foldl (slot_step S L) x) = fs.foldl (slot_step S L) x := by
  cases hl : (fs.filter (fun g => S g.1)).getLast? with
  | some f => rw [slot_last_short S L fs _ f hl, slot_last_short S L fs x f hl]
  | none =>
    have hnil : fs.filter (fun g => S g.1) = [] := List.getLast?_eq_none_iff.1 hl
    have hall : ∀ g ∈ fs, S g.1 = false := by
      intro g hg
      have := List.filter_eq_nil_iff.1 hnil g hg
      simpa using this
    cases hr : fs.foldl (slot_step S L) x with
    | none =>
      have hx := slot_none S L fs x hr
      subst hx
      exact hr
    | some r => exact slot_keep S L fs r hall

/-! ## The entry point -/

theorem bind_eq_val {α β : Type} (x : outcome α) (f : α → outcome β) (r : β)
    (h : x.bind f = outcome.val r) : ∃ a, x = outcome.val a ∧ f a = outcome.val r := by
  cases x with
  | val a => exact ⟨a, rfl, h⟩
  | exit c => simp [outcome.bind] at h
  | hang => simp [outcome.bind] at h

/-- When `do_add` returns, it returns 0. -/
theorem do_add_status (u : udev_env) (c : cups_env) (junk : Option (List Char)) (fuel : Nat)
    (cmd devpath : List Char) (r : List Char × Int)
    (h : do_add u c junk fuel cmd devpath = outcome.val r) : r.2 = 0 := by
  unfold do_add at h
  obtain ⟨id, -, h⟩ := bind_eq_val _ _ _ h
  obtain ⟨id1, -, h⟩ := bind_eq_val _ _ _ h
  obtain ⟨uri, -, h⟩ := bind_eq_val _ _ _ h
  cases uri with
  | none =>
    simp only [outcome.val.injEq] at h
    rw [← h]
  | some t =>
    simp only [outcome.val.injEq] at h
    rw [← h]

/-- C11. For every argument vector: when the count is not 3, or the second
argument is neither add nor remove, `main` writes the usage text to the error
stream and returns 1; when `main` returns 1 the vector is of that kind; for
prog, remove, uri it returns 0 and writes nothing; for prog, add, path it runs
`do_add` with the program name and the path and hands on what that writes and
returns. -/
theorem main_dispatch (u : udev_env) (c : cups_env) (junk : Option (List Char)) (fuel : Nat)
    (argv : List (List Char)) :
    ((argv.length ≠ 3 ∨
        (argv.get? 1 ≠ some "add".toList ∧ argv.get? 1 ≠ some "remove".toList)) →
      main u c junk fuel argv = outcome.val ⟨[], usage (argv0_text argv), 1⟩) ∧
    (∀ r, main u c junk fuel argv = outcome.val r → r.status = 1 →
      (argv.length ≠ 3 ∨
        (argv.get? 1 ≠ some "add".toList ∧ argv.get? 1 ≠ some "remove".toList))) ∧
    (∀ prog uri, main u c junk fuel [prog, "remove".toList, uri] = outcome.val ⟨[], [], 0⟩) ∧
    (∀ prog path, main u c junk fuel [prog, "add".toList, path] =
      (do_add u c junk fuel prog path).bind fun r => outcome.val ⟨r.1, [], r.2⟩) := by
  have hadd : strcmp "add".toList "add".toList = 0 := by decide
  have hrem : strcmp "remove".toList "remove".toList = 0 := by decide
  have hra : strcmp "remove".toList "add".toList ≠ 0 := by decide
  refine ⟨?_, ?_, ?_, ?_⟩
  · intro h
    rcases argv with _ | ⟨a0, _ | ⟨a1, _ | ⟨a2, _ | ⟨a3, rest⟩⟩⟩⟩
    · rfl
    · rfl
    · rfl
    · rcases h with h | h
      · simp at h
      · simp only [List.get?_cons_succ, List.get?_cons_zero, ne_eq, Option.some.injEq] at h
        have h1 : strcmp a1 "add".toList ≠ 0 := fun hh => h.1 ((strcmp_eq_zero_iff _ _).1 hh)
        have h2 : strcmp a1 "remove".toList ≠ 0 :=
          fun hh => h.2 ((strcmp_eq_zero_iff _ _).1 hh)
        simp only [main, h1, h2, decide_False, Bool.false_eq_true, or_self, not_false_eq_true,
          if_true, argv0_text]
    · rfl
  · intro r hr hst
    rcases argv with _ | ⟨a0, _ | ⟨a1, _ | ⟨a2, _ | ⟨a3, rest⟩⟩⟩⟩
    · left; simp
    · left; simp
    · left; simp
    · right
      simp only [List.get?_cons_succ, List.get?_cons_zero, ne_eq, Option.some.injEq]
      constructor
      · intro ha
        subst ha
        simp only [main, hadd, decide_True, true_or, not_true_eq_false, if_false, if_true] at hr
        obtain ⟨x, hx, hv⟩ := bind_eq_val _ _ _ hr
        have h0 := do_add_status _ _ _ _ _ _ _ hx
        simp only [outcome.val.injEq] at hv
        rw [← hv] at hst
        simp only at hst
        rw [h0] at hst
        exact absurd hst (by decide)
      · intro ha
        subst ha
        simp only [main, hrem, hra, decide_False, Bool.false_eq_true, false_or,
          not_true_eq_false, if_false, outcome.val.injEq] at hr
        rw [← hr] at hst
        simp only [do_remove] at hst
        exact absurd hst (by decide)
    · left; simp
  · intro prog uri
    simp only [main, hrem, hra, decide_False, Bool.false_eq_true, false_or, not_true_eq_false,
      if_false, do_remove]
  · intro prog path
    simp only [main, hadd, decide_True, true_or, not_true_eq_false, if_false, if_true]

/-- C11 at the vectors prog alone, prog print x, prog remove u and prog add p. -/
theorem main_dispatch_witness :
    (["prog".toList].length ≠ 3 ∨
      (["prog".toList].get? 1 ≠ some "add".toList ∧
        ["prog".toList].get? 1 ≠ some "remove".toList)) ∧
    main sample_udev (sample_cups []) none 1 ["prog".toList] = outcome.val
      ⟨[], "Syntax: prog add \x7bUSB device path\x7d\n        prog remove \x7bCUPS device URI\x7d\n".toList,
        1⟩ ∧
    main sample_udev (sample_cups []) none 1 ["prog".toList, "print".toList, "x".toList]
      = outcome.val ⟨[], usage "prog".toList, 1⟩ ∧
    main sample_udev (sample_cups []) none 1 ["prog".toList, "remove".toList, "u".toList]
      = outcome.val ⟨[], [], 0⟩ ∧
    main sample_udev (sample_cups [device_uri_attr "usb://EPSON/Stylus%20D78".toList]) none 1
        ["prog".toList, "add".toList, "/devices/usb1/1-1".toList]
      = outcome.val ⟨"REMOVE_CMD=\"prog remove usb://EPSON/Stylus%20D78\"\n".toList, [], 0⟩ :=
  ⟨by decide,
    (main_dispatch sample_udev (sample_cups []) none 1 ["prog".toList]).1 (by decide),
    by decide, by decide, by decide⟩

/-! ## The connection loop -/

theorem connect_loop_spec (connect : Nat → Bool) (tries k : Nat) :
    k ≤ (connect_loop connect tries k).2 ∧ (connect_loop connect tries k).2 ≤ k + tries ∧
    ((connect_loop connect tries k).1 = true →
      k < (connect_loop connect tries k).2 ∧
      connect ((connect_loop connect tries k).2 - 1) = true ∧
      ∀ j, k ≤ j → j < (connect_loop connect tries k).2 - 1 → connect j = false) ∧
    ((connect_loop connect tries k).1 = false →
      (connect_loop connect tries k).2 = k + tries ∧
      ∀ j, k ≤ j → j < k + tries → connect j = false) := by
  induction tries generalizing k with
  | zero =>
    refine ⟨Nat.le_refl _, Nat.le_refl _, ?_, ?_⟩
    · intro h; simp [connect_loop] at h
    · intro _
      exact ⟨rfl, fun j h1 h2 => by omega⟩
  | succ t ih =>
    unfold connect_loop
    by_cases hk : connect k = true
    · simp only [hk, if_true]
      refine ⟨by omega, by omega, ?_, ?_⟩
      · intro _
        refine ⟨by omega, ?_, ?_⟩
        · simpa using hk
        · intro j h1 h2
          simp only [Nat.add_sub_cancel] at h2
          omega
      · intro h; simp at h
    · have hkf : connect k = false := by simpa using hk
      rw [hkf]
      simp only [Bool.false_eq_true, if_false]
      obtain ⟨i1, i2, i3, i4⟩ := ih (k + 1)
      refine ⟨by omega, by omega, ?_, ?_⟩
      · intro h
        obtain ⟨j1, j2, j3⟩ := i3 h
        refine ⟨by omega, j2, ?_⟩
        intro j h1 h2
        by_cases hj : j = k
        · rw [hj]; exact hkf
        · exact j3 j (by omega) h2
      · intro h
        obtain ⟨j1, j2⟩ := i4 h
        refine ⟨by omega, ?_⟩
        intro j h1 h2
        by_cases hj : j = k
        · rw [hj]; exact hkf
        · exact j2 j (by omega) (by omega)

/-- C12. For every sequence `c.connect` of attempt outcomes: at most 6 calls of
`httpConnectEncrypt` are made; when the attempt number `n` (counted from 0,
`n < 6`) is the first to succeed, exactly `n + 1` calls are made; the loop ends
without connection exactly when the first 6 attempts all fail, and then the
process leaves through `exit (1)`; with a connection, an answer and an
acceptable status the function returns. -/
theorem bounded_connection_retry (c : cups_env) (junk : Option (List Char)) (id : device_id) :
    (connect_loop c.connect 6 0).2 ≤ 6 ∧
    (∀ n, n < 6 → c.connect n = true → (∀ j, j < n → c.connect j = false) →
      connect_loop c.connect 6 0 = (true, n + 1)) ∧
    ((connect_loop c.connect 6 0).1 = false ↔ ∀ j, j < 6 → c.connect j = false) ∧
    ((∀ j, j < 6 → c.connect j = false) →
      connect_loop c.connect 6 0 = (false, 6) ∧
      find_matching_device_uri c junk id = outcome.exit 1) ∧
    (∀ answer, c.answer = some answer → answer.status_code ≤ IPP_OK_CONFLICT →
      (find_matching_device_uri c junk id = outcome.exit 1 ↔
        ∀ j, j < 6 → c.connect j = false)) := by
  obtain ⟨s1, s2, s3, s4⟩ := connect_loop_spec c.connect 6 0
  have hfail : (connect_loop c.connect 6 0).1 = false ↔ ∀ j, j < 6 → c.connect j = false := by
    constructor
    · intro h j hj
      exact (s4 h).2 j (Nat.zero_le _) (by omega)
    · intro h
      by_contra hc
      have ht : (connect_loop c.connect 6 0).1 = true := by simpa using hc
      obtain ⟨j1, j2, j3⟩ := s3 ht
      have := h ((connect_loop c.connect 6 0).2 - 1) (by omega)
      rw [this] at j2
      exact absurd j2 (by decide)
  refine ⟨by omega, ?_, hfail, ?_, ?_⟩
  · intro n hn hcn hbefore
    cases hb : (connect_loop c.connect 6 0).1 with
    | false =>
      have := (hfail.1 hb) n hn
      rw [this] at hcn
      exact absurd hcn (by decide)
    | true =>
      obtain ⟨j1, j2, j3⟩ := s3 hb
      have hle : (connect_loop c.connect 6 0).2 - 1 = n := by
        rcases Nat.lt_trichotomy ((connect_loop c.connect 6 0).2 - 1) n with h | h | h
        · have := hbefore _ h
          rw [this] at j2
          exact absurd j2 (by decide)
        · exact h
        · have := j3 n (Nat.zero_le _) h
          rw [this] at hcn
          exact absurd hcn (by decide)
      have h2 : (connect_loop c.connect 6 0).2 = n + 1 := by omega
      exact Prod.ext hb h2
  · intro h
    have hb := hfail.2 h
    have h2 := (s4 hb).1
    refine ⟨Prod.ext hb (by simpa using h2), ?_⟩
    unfold find_matching_device_uri
    rw [if_pos hb]
  · intro answer ha hs
    rw [← hfail]
    constructor
    · intro h
      by_contra hc
      have ht : (connect_loop c.connect 6 0).1 = true := by simpa using hc
      rw [find_matching_device_uri_eq c junk id answer ht ha hs] at h
      exact absurd h (by simp)
    · intro hb
      unfold find_matching_device_uri
      rw [if_pos hb]

/-- C12 at a server that refuses twice and then accepts, and at one that never accepts. -/
theorem bounded_connection_retry_witness :
    (2 < 6 ∧ (fun k => decide (2 ≤ k)) 2 = true ∧
      ∀ j, j < 2 → (fun k => decide (2 ≤ k)) j = false) ∧
    connect_loop (fun k => decide (2 ≤ k)) 6 0 = (true, 3) ∧
    (∀ j, j < 6 → (fun _ => false) j = false) ∧
    find_matching_device_uri ⟨fun _ => false, some ⟨0, []⟩, sample_separate⟩ none
      (stylus_id none) = outcome.exit 1 :=
  ⟨by decide,
    (bounded_connection_retry ⟨fun k => decide (2 ≤ k), none, sample_separate⟩ none
      (stylus_id none)).2.1 2 (by decide) (by decide) (by decide),
    fun _ _ => rfl,
    by decide⟩

/-! ## The parser: the last field and repeated runs -/

/-- C13, evaluated on the code. In DES:MFG:EPSON the value of the last field
runs to the end of the text; line 120 then leaves `start` just after the ':' of
that field, and the next iteration scans the value as a further field MFG with
value EPSON. With the closing ';' the loop ends after the field DES. The two
texts give different manufacturer slots. -/
theorem unterminated_final_field_is_rescanned :
    scanned_fields "DES:MFG:EPSON".toList
      = [("DES".toList, "MFG:EPSON".toList), ("MFG".toList, "EPSON".toList)] ∧
    scanned_fields "DES:MFG:EPSON;".toList = [("DES".toList, "MFG:EPSON".toList)] ∧
    parse_device_id "DES:MFG:EPSON".toList device_id.empty
      = outcome.val ⟨some "DES:MFG:EPSON".toList, some "EPSON".toList, none, none⟩ ∧
    parse_device_id "DES:MFG:EPSON;".toList device_id.empty
      = outcome.val ⟨some "DES:MFG:EPSON;".toList, none, none, none⟩ := by
  decide

/-- C14. For every text `s` and every identity `id` the parser is started on
(the empty one in particular), the parser returns an identity `r` whose raw text
is `s`, and the parser started on `r` with the same text returns `r` again. -/
theorem idempotent_parsing (s : List Char) (id : device_id) :
    ∃ r, parse_device_id s id = outcome.val r ∧ parse_device_id s r = outcome.val r ∧
      r.full_device_id = some s := by
  refine ⟨_, parse_device_id_eq s id, ?_, ?_⟩
  · rw [parse_device_id_eq, assign_all_slots, assign_all_slots]
    simp only [slot_idem]
  · rw [assign_all_slots]

/-! ## The matcher: which endpoint is returned -/

theorem accepted_eq_spec (sep : List Char → uri_parts) (id : device_id) (mfg mdl uri : List Char)
    (hm : id.mfg = some mfg) (hd : id.mdl = some mdl) :
    accepted sep id uri = spec_accepted (sep uri) mfg mdl id.sern := by
  obtain ⟨f, m, d, sn⟩ := id
  simp only at hm hd
  subst hm hd
  by_cases h1 : strcasecmp (sep uri).mfg mfg = 0
  · have c1 : ci_eq (sep uri).mfg mfg := (strcasecmp_eq_zero_iff _ _).1 h1
    by_cases h2 : model_check (resource_mdl (sep uri).resource) mdl = true
    · cases h3 : serial_marker (resource_mdl (sep uri).resource) with
      | none => simp [accepted, examine, spec_accepted, resource_serial, h1, c1, h2, h3]
      | some k =>
        cases sn with
        | none => simp [accepted, examine, spec_accepted, resource_serial, h1, c1, h2, h3]
        | some sv =>
          by_cases h4 : strcasecmp (List.drop (k + 8) (resource_mdl (sep uri).resource)) sv = 0
          · have c4 := (strcasecmp_eq_zero_iff _ _).1 h4
            simp [accepted, examine, spec_accepted, resource_serial, h1, c1, h2, h3, h4, c4]
          · have c4 : ¬ ci_eq (List.drop (k + 8) (resource_mdl (sep uri).resource)) sv :=
              fun hh => h4 ((strcasecmp_eq_zero_iff _ _).2 hh)
            simp [accepted, examine, spec_accepted, resource_serial, h1, c1, h2, h3, h4, c4]
    · have h2f : model_check (resource_mdl (sep uri).resource) mdl = false := by
        simpa using h2
      simp [accepted, examine, spec_accepted, h1, c1, h2f]
  · have c1 : ¬ ci_eq (sep uri).mfg mfg := fun hh => h1 ((strcasecmp_eq_zero_iff _ _).2 hh)
    simp [accepted, examine, spec_accepted, h1, c1]

/-- C15. For an identity with manufacturer and model set, a connection within
the six attempts and an answer with an acceptable status: when `uri` is the last
endpoint of the answer that is accepted in the sense of the claim, the matcher
returns `uri`. -/
theorem last_accepted_endpoint_is_returned (c : cups_env) (junk : Option (List Char))
    (id : device_id) (answer : ipp_t) (mfg mdl uri : List Char)
    (hm : id.mfg = some mfg) (hd : id.mdl = some mdl)
    (hc : (connect_loop c.connect 6 0).1 = true) (ha : c.answer = some answer)
    (hs : answer.status_code ≤ IPP_OK_CONFLICT)
    (hlast : ((endpoints answer.attrs).filter
      (fun u => spec_accepted (c.httpSeparateURI u) mfg mdl id.sern)).getLast? = some uri) :
    find_matching_device_uri c junk id = outcome.val (some uri) := by
  rw [find_matching_device_uri_eq c junk id answer hc ha hs]
  unfold last_accepted
  have hf : accepted c.httpSeparateURI id
      = fun u => spec_accepted (c.httpSeparateURI u) mfg mdl id.sern :=
    funext fun u => accepted_eq_spec c.httpSeparateURI id mfg mdl u hm hd
  rw [hf, hlast]

/-- C15 at an answer of three printer groups: a serial-less endpoint, the
endpoint with the serial of the identity, and a serial-less endpoint again,
which is the one returned. -/
theorem last_accepted_endpoint_is_returned_witness :
    (((endpoints [device_info_attr "EPSON Stylus D78".toList,
          device_uri_attr "usb://EPSON/Stylus%20D78".toList, group_separator,
          device_uri_attr "usb://EPSON/Stylus%20D78?serial=123".toList, group_separator,
          device_uri_attr "usb://epson/stylus%20d78".toList]).filter
        (fun u => spec_accepted (sample_separate u) "EPSON".toList "Stylus D78".toList
          (some "123".toList))).getLast? = some "usb://epson/stylus%20d78".toList) ∧
    find_matching_device_uri
      (sample_cups [device_info_attr "EPSON Stylus D78".toList,
        device_uri_attr "usb://EPSON/Stylus%20D78".toList, group_separator,
        device_uri_attr "usb://EPSON/Stylus%20D78?serial=123".toList, group_separator,
        device_uri_attr "usb://epson/stylus%20d78".toList])
      (some "stale".toList) (stylus_id (some "123".toList))
      = outcome.val (some "usb://epson/stylus%20d78".toList) :=
  ⟨by decide,
    last_accepted_endpoint_is_returned _ (some "stale".toList) (stylus_id (some "123".toList))
      ⟨0, _⟩ "EPSON".toList "Stylus D78".toList "usb://epson/stylus%20d78".toList
      rfl rfl (by decide) rfl (by decide) (by decide)⟩

/-! ## The add path: the prefix loop -/

/-- C16, evaluated on the code. For the identity HP / HP LaserJet 1020 the
loop of lines 355-357 is still running after any number of evaluations of its
condition: `i` stays 0 and the first characters agree. -/
theorem prefix_loop_does_not_end (fuel : Nat) :
    prefix_loop "HP".toList "HP LaserJet 1020".toList 0 fuel = outcome.hang ∧
    normalize fuel ⟨none, some "HP".toList, some "HP LaserJet 1020".toList, none⟩
      = outcome.hang :=
  ⟨prefix_loop_stuck _ _ (by decide) (by decide) fuel,
    normalize_hangs fuel _ _ _ rfl rfl (by decide) (by decide)⟩

/-! ## The parser: termination and the scan order -/

theorem scan_field_single (name v : List Char) (hname : ':' ∉ name) (hv : ';' ∉ v) :
    scan_field (name ++ ':' :: v) = some (name, v, v) := by
  unfold scan_field
  have hne : name ++ ':' :: v ≠ [] := by simp
  have hp : (decide (':' ≠ ':')) = false := by decide
  simp only [hne, if_false]
  rw [takeWhile_append_cons name v ':' (ne_of_not_mem hname) hp,
    dropWhile_append_cons name v ':' (ne_of_not_mem hname) hp]
  simp only
  rw [takeWhile_all v (ne_of_not_mem hv), dropWhile_all v (ne_of_not_mem hv)]

theorem scan_field_no_colon (v : List Char) (hv : ':' ∉ v) : scan_field v = none := by
  unfold scan_field
  by_cases hs : v = []
  · simp [hs]
  · simp only [hs, if_false]
    rw [dropWhile_all v (ne_of_not_mem hv)]

theorem scanned_fields_single (name v : List Char) (hname : ':' ∉ name) (hv1 : ';' ∉ v)
    (hv2 : ':' ∉ v) : scanned_fields (name ++ ':' :: v) = [(name, v)] := by
  unfold scanned_fields
  have hlen : (name ++ ':' :: v).length + 1 = (name.length + v.length) + 2 := by
    simp only [List.length_append, List.length_cons]; omega
  rw [hlen, fields, scan_field_single name v hname hv1]
  simp only
  rw [fields, scan_field_no_colon v hv2]

/-- C17. For every text the loop is started on: `length + 1` iterations give a
result, and more fuel gives the same result; an iteration either leaves the
loop (`scan_field` is `none`) or goes on from a text that is strictly shorter;
and for a last field without ';' the next iteration starts just after the ':'
of that field. -/
theorem parser_terminates (start : List Char) (id : device_id) :
    (∃ r, parse_fields (start.length + 1) start id = outcome.val r) ∧
    (∃ r, parse_device_id start id = outcome.val r) ∧
    (∀ fuel, start.length < fuel →
      parse_fields fuel start id = parse_fields (start.length + 1) start id) ∧
    (∀ fuel, parse_fields (fuel + 1) start id =
      match scan_field start with
      | none => outcome.val id
      | some (name, value, next) => parse_fields fuel next (assign_field name value id)) ∧
    (∀ name value next, scan_field start = some (name, value, next) →
      next.length < start.length) ∧
    (∀ name v, ':' ∉ name → ';' ∉ v → scan_field (name ++ ':' :: v) = some (name, v, v)) :=
  ⟨parse_fields_total _ _ _ (Nat.lt_succ_self _), parse_device_id_total _ _,
    fun fuel h => parse_fields_fuel _ fuel start id (Nat.lt_succ_self _) h,
    fun fuel => parse_fields_step fuel start id,
    fun _ _ _ h => scan_field_lt h,
    fun name v h1 h2 => scan_field_single name v h1 h2⟩

/-- C17 at the text DES:MFG:EPSON, whose last field has no ';'. -/
theorem parser_terminates_witness :
    scan_field "DES:MFG:EPSON".toList
      = some ("DES".toList, "MFG:EPSON".toList, "MFG:EPSON".toList) ∧
    "MFG:EPSON".toList.length < "DES:MFG:EPSON".toList.length ∧
    (':' ∉ "MFG".toList ∧ ';' ∉ "EPSON".toList) ∧
    scan_field ("MFG".toList ++ ':' :: "EPSON".toList)
      = some ("MFG".toList, "EPSON".toList, "EPSON".toList) :=
  ⟨by decide,
    (parser_terminates "DES:MFG:EPSON".toList device_id.empty).2.2.2.2.1 "DES".toList
      "MFG:EPSON".toList "MFG:EPSON".toList (by decide),
    by decide,
    (parser_terminates [] device_id.empty).2.2.2.2.2 "MFG".toList "EPSON".toList
      (by decide) (by decide)⟩

/-- C18. For every text `s` and every run of the parser on it that returns
`r`: when some scanned field has a name that starts with MFG, the manufacturer
of `r` is the value of the last such field, and likewise for MDL and the model
and for SERN or SN and the serial; a field whose name does not start with MFG
leaves a manufacturer that is set as it is. -/
theorem short_keywords_overwrite (s : List Char) (id r : device_id)
    (h : parse_device_id s id = outcome.val r) :
    (∀ f, ((scanned_fields s).filter (fun g => mfg_short g.1)).getLast? = some f →
      r.mfg = some f.2) ∧
    (∀ f, ((scanned_fields s).filter (fun g => mdl_short g.1)).getLast? = some f →
      r.mdl = some f.2) ∧
    (∀ f, ((scanned_fields s).filter (fun g => sern_short g.1)).getLast? = some f →
      r.sern = some f.2) ∧
    (∀ name value x, mfg_short name = false →
      (assign_field name value ⟨r.full_device_id, some x, r.mdl, r.sern⟩).mfg = some x) := by
  rw [parse_device_id_eq, assign_all_slots] at h
  simp only [outcome.val.injEq] at h
  subst h
  refine ⟨?_, ?_, ?_, ?_⟩
  · intro f hf
    exact slot_last_short _ _ _ _ f hf
  · intro f hf
    exact slot_last_short _ _ _ _ f hf
  · intro f hf
    exact slot_last_short _ _ _ _ f hf
  · intro name value x hn
    rw [assign_field_slots]
    simp [slot_step, hn]

/-- C18 at the text MFG:A;MFG:B. -/
theorem short_keywords_overwrite_witness :
    parse_device_id "MFG:A;MFG:B".toList device_id.empty
      = outcome.val ⟨some "MFG:A;MFG:B".toList, some "B".toList, none, none⟩ ∧
    ((scanned_fields "MFG:A;MFG:B".toList).filter (fun g => mfg_short g.1)).getLast?
      = some ("MFG".toList, "B".toList) ∧
    (⟨some "MFG:A;MFG:B".toList, some "B".toList, none, none⟩ : device_id).mfg
      = some "B".toList :=
  ⟨by decide, by decide,
    (short_keywords_overwrite "MFG:A;MFG:B".toList device_id.empty
      ⟨some "MFG:A;MFG:B".toList, some "B".toList, none, none⟩ (by decide)).1
      ("MFG".toList, "B".toList) (by decide)⟩

/-! ## The parser: a field name with a ';' in it -/

/-- A name that has a ';' where the keyword still goes on, or whose start
differs from the keyword, does not start with the keyword. -/
theorem begins_with_semicolon (kw t rest : List Char) (hkw : ';' ∉ kw.map tolower)
    (ht : ¬ ci_eq (t.take kw.length) kw) : begins_with kw (t ++ ';' :: rest) = false := by
  unfold begins_with
  rw [decide_eq_false_iff_not]
  intro h
  rw [strncasecmp_eq_zero_iff, List.take_length] at h
  by_cases hl : kw.length ≤ t.length
  · rw [List.take_append_of_le_length hl] at h
    exact ht h
  · have hmem : ';' ∈ (t ++ ';' :: rest).take kw.length := by
      rw [List.take_append_eq_append_take]
      obtain ⟨k, hk⟩ : ∃ k, kw.length - t.length = k + 1 := ⟨kw.length - t.length - 1, by omega⟩
      rw [hk, List.take_succ_cons]
      simp
    apply hkw
    unfold ci_eq at h
    rw [← h]
    exact List.mem_map.2 ⟨';', hmem, by decide⟩

/-- C19. For a text `t` without ':' that does not start with MODEL or MDL in
any letter case, and a value `v` without ';' and ':', the one field scanned in
`t ++ ";MDL:" ++ v` has the name `t ++ ";MDL"`, and the parser started on the
empty identity returns an identity without model. -/
theorem field_name_runs_across_semicolon (t v : List Char) (ht : ':' ∉ t)
    (h5 : ¬ ci_eq (t.take 5) "MODEL".toList) (h3 : ¬ ci_eq (t.take 3) "MDL".toList)
    (hv1 : ';' ∉ v) (hv2 : ':' ∉ v) :
    scanned_fields (t ++ ";MDL:".toList ++ v) = [(t ++ ";MDL".toList, v)] ∧
    ∃ r, parse_device_id (t ++ ";MDL:".toList ++ v) device_id.empty = outcome.val r ∧
      r.mdl = none := by
  have hsplit : t ++ ";MDL:".toList ++ v = (t ++ ";MDL".toList) ++ ':' :: v := by
    have : ";MDL:".toList = ";MDL".toList ++ [':'] := by decide
    rw [this]
    simp only [List.append_assoc, List.singleton_append]
  have hname : ':' ∉ t ++ ";MDL".toList := by
    rw [List.mem_append, not_or]
    exact ⟨ht, by decide⟩
  have hfields := scanned_fields_single (t ++ ";MDL".toList) v hname hv1 hv2
  rw [hsplit]
  refine ⟨hfields, _, parse_device_id_eq _ _, ?_⟩
  rw [hfields, assign_all_slots]
  have hrest : ";MDL".toList = ';' :: "MDL".toList := by decide
  have hl : mdl_long (t ++ ";MDL".toList) = false := by
    rw [hrest]
    exact begins_with_semicolon "MODEL".toList t _ (by decide) h5
  have hs : mdl_short (t ++ ";MDL".toList) = false := by
    rw [hrest]
    exact begins_with_semicolon "MDL".toList t _ (by decide) h3
  show slot_step mdl_short mdl_long none (t ++ ";MDL".toList, v) = none
  unfold slot_step
  rw [if_neg]
  rintro (⟨-, h⟩ | h)
  · exact Bool.noConfusion (hl.symm.trans h)
  · exact Bool.noConfusion (hs.symm.trans h)

/-- C19 at the texts CLS and the empty text with the value X, together with
the text MFG:A;;MDL:X. -/
theorem field_name_runs_across_semicolon_witness :
    (':' ∉ "CLS".toList ∧ ¬ ci_eq ("CLS".toList.take 5) "MODEL".toList ∧
      ¬ ci_eq ("CLS".toList.take 3) "MDL".toList ∧ ';' ∉ "X".toList ∧ ':' ∉ "X".toList) ∧
    (scanned_fields ("CLS".toList ++ ";MDL:".toList ++ "X".toList)
        = [("CLS".toList ++ ";MDL".toList, "X".toList)] ∧
      ∃ r, parse_device_id ("CLS".toList ++ ";MDL:".toList ++ "X".toList) device_id.empty
        = outcome.val r ∧ r.mdl = none) ∧
    parse_device_id "CLS;MDL:X".toList device_id.empty
      = outcome.val ⟨some "CLS;MDL:X".toList, none, none, none⟩ ∧
    parse_device_id ";MDL:X".toList device_id.empty
      = outcome.val ⟨some ";MDL:X".toList, none, none, none⟩ ∧
    parse_device_id "MFG:A;;MDL:X".toList device_id.empty
      = outcome.val ⟨some "MFG:A;;MDL:X".toList, some "A".toList, none, none⟩ :=
  ⟨by decide,
    field_name_runs_across_semicolon "CLS".toList "X".toList (by decide) (by decide)
      (by decide) (by decide) (by decide),
    by decide, by decide, by decide⟩

/-! ## The add path: the device path -/

/-- C20. For two device paths that libudev finds: `device_id_from_devpath`
returns for both the identity parsed from the text of line 185, with
manufacturer EPSON, model Stylus D78 and no serial; the check of line 343 and
the normalization step let it through unchanged; and `do_add` gives the same
result for both paths. -/
theorem identity_ignores_devpath (u : udev_env) (c : cups_env) (junk : Option (List Char))
    (fuel : Nat) (cmd p1 p2 : List Char) (hu : u.udev_new_ok = true)
    (h1 : u.device_exists (u.sys_path ++ p1) = true)
    (h2 : u.device_exists (u.sys_path ++ p2) = true) :
    device_id_from_devpath u p1 = outcome.val
      ⟨ieee1284_id, some "EPSON".toList, some "Stylus D78".toList, none⟩ ∧
    device_id_from_devpath u p2 = device_id_from_devpath u p1 ∧
    parse_device_id
        "MFG:EPSON;CMD:ESCPL2,BDC,D4,D4PX;MDL:Stylus D78;CLS:PRINTER;DES:EPSON Stylus D78;".toList
        device_id.empty
      = outcome.val ⟨ieee1284_id, some "EPSON".toList, some "Stylus D78".toList, none⟩ ∧
    normalize (fuel + 1) ⟨ieee1284_id, some "EPSON".toList, some "Stylus D78".toList, none⟩
      = outcome.val ⟨ieee1284_id, some "EPSON".toList, some "Stylus D78".toList, none⟩ ∧
    do_add u c junk fuel cmd p1 = do_add u c junk fuel cmd p2 := by
  have e1 := device_id_from_devpath_eq u p1 hu h1
  have e2 := device_id_from_devpath_eq u p2 hu h2
  refine ⟨e1, by rw [e1, e2], by decide, rfl, ?_⟩
  unfold do_add
  rw [e1, e2]

/-- C20 at the paths /devices/usb1/1-1 and /devices/usb2/2-3. -/
theorem identity_ignores_devpath_witness :
    (sample_udev.udev_new_ok = true ∧
      sample_udev.device_exists (sample_udev.sys_path ++ "/devices/usb1/1-1".toList) = true ∧
      sample_udev.device_exists (sample_udev.sys_path ++ "/devices/usb2/2-3".toList) = true) ∧
    device_id_from_devpath sample_udev "/devices/usb2/2-3".toList
      = device_id_from_devpath sample_udev "/devices/usb1/1-1".toList ∧
    do_add sample_udev (sample_cups [device_uri_attr "usb://EPSON/Stylus%20D78".toList]) none 1
        "prog".toList "/devices/usb1/1-1".toList
      = do_add sample_udev (sample_cups [device_uri_attr "usb://EPSON/Stylus%20D78".toList])
        none 1 "prog".toList "/devices/usb2/2-3".toList :=
  ⟨by decide,
    (identity_ignores_devpath sample_udev
      (sample_cups [device_uri_attr "usb://EPSON/Stylus%20D78".toList]) none 1 "prog".toList
      "/devices/usb1/1-1".toList "/devices/usb2/2-3".toList rfl rfl rfl).2.1,
    (identity_ignores_devpath sample_udev
      (sample_cups [device_uri_attr "usb://EPSON/Stylus%20D78".toList]) none 1 "prog".toList
      "/devices/usb1/1-1".toList "/devices/usb2/2-3".toList rfl rfl rfl).2.2.2.2⟩

end UdevConfigurePrinter
